import Mathlib

/-!
Verification model of the Campaign Execution Engine
(`server/services/knowledgeRetrieval.ts`, class `CampaignExecutionEngine`,
together with `voipOrchestrator.makeCall` and the call-end route of
`server/routes.ts`).

The engine code is translated function by function.  The persistence layer
(`storage.*` for campaigns, campaign leads and campaign calls) is not present
in the repository sources; those operations are modelled from the spec as a
plain in-memory store (lists in creation order, id counters).  Timestamps are
integers (milliseconds, as `Date.now()`); the local wall-clock reading used by
`isWithinWorkingHours` (day of week, hours, minutes) is passed explicitly.
The outcome of the external voice-provider placement call is an oracle
`place : Nat -> Option String` (`none` = placement succeeded, `some msg` =
the adapter threw an error with message `msg`).
-/

namespace CampaignEngine

/-- Campaign lifecycle status (`campaigns.status`). -/
inductive CampaignStatus where
  | draft
  | scheduled
  | running
  | paused
  | completed
deriving DecidableEq

/-- Campaign lead status (`campaign_leads.status`). -/
inductive LeadStatus where
  | pending
  | answered
  | contacted
  | failed
deriving DecidableEq

/-- Call record status (`calls.status`). -/
inductive CallStatus where
  | queued
  | ringing
  | active
  | completed
  | failed
  | dropped
deriving DecidableEq

/-- The `settings.workingHours`.  The source stores `start` and `end` as `"HH:MM"`
strings and splits them on `:`; the two parsed components are modelled
directly as hour/minute numbers. -/
structure WorkingHours where
  startHour : Nat
  startMinute : Nat
  endHour : Nat
  endMinute : Nat
  timezone : String
  daysOfWeek : List Nat
deriving DecidableEq

/-- The `CampaignSettings` of the engine (retryDelay in minutes). -/
structure CampaignSettings where
  maxConcurrentCalls : Nat
  retryAttempts : Nat
  retryDelay : Nat
  workingHours : WorkingHours
  voipProvider : String
deriving DecidableEq

/-- The local wall-clock reading taken from `new Date()` by
`isWithinWorkingHours`: `getDay()`, `getHours()`, `getMinutes()`. -/
structure LocalTime where
  dayOfWeek : Nat
  hours : Nat
  minutes : Nat
deriving DecidableEq

/-- A campaign row. -/
structure CampaignRec where
  id : Nat
  tenantId : String
  agentId : String
  name : String
  status : CampaignStatus
  totalLeads : Nat
  completedLeads : Nat
  successfulCalls : Nat
  settings : CampaignSettings
  scheduledAt : Option Int
  startedAt : Option Int
  completedAt : Option Int
deriving DecidableEq

/-- A campaign lead row. -/
structure LeadRec where
  id : Nat
  campaignId : Nat
  phoneNumber : String
  status : LeadStatus
  callAttempts : Nat
  lastCallAt : Option Int
  notes : Option String
  callDuration : Option Nat
  callTranscript : Option String
  callSentiment : Option String
deriving DecidableEq

/-- The `metadata` JSON of a call row.  `voipOrchestrator.makeCall` writes
`{ provider, externalCallId, settings }`, where `settings` is its fifth
argument — for engine-placed calls the context
`{ leadId, campaignId, persona, customMessage }` — so the lead and campaign
references end up nested under the `settings` key (`settingsLeadId` /
`settingsCampaignId` here).  The top-level `leadId` / `campaignId` keys that
`handleCallWebhook` reads are modelled as well; `makeCall` never writes
them, so they are absent (`none`) on every call the engine places.
`provider` and `externalCallId` are elided: nothing modelled reads them. -/
structure CallMetadata where
  leadId : Option Nat
  campaignId : Option Nat
  settingsLeadId : Option Nat
  settingsCampaignId : Option Nat
deriving DecidableEq

/-- A call row.  Its `metadata` carries the JSON written by
`voipOrchestrator.makeCall`; note that the engine context sits nested under
`metadata.settings`, not at the top level where `handleCallWebhook` looks. -/
structure CallRec where
  id : Nat
  tenantId : String
  agentId : String
  phoneNumber : String
  status : CallStatus
  metadata : CallMetadata
  endTime : Option Int
deriving DecidableEq

/-- Modelled from the spec: the Store is a generic CRUD collaborator; rows
live in lists in creation order (stable FIFO), with fresh ids from counters. -/
structure Store where
  campaigns : List CampaignRec
  leads : List LeadRec
  calls : List CallRec
  activityLog : List String
  nextCampaignId : Nat
  nextLeadId : Nat
  nextCallId : Nat

/-- In-memory engine state: the `runningCampaigns` set of the
`CampaignExecutionEngine` instance. -/
structure EngineState where
  running : List Nat

/-- Whole system state: persistent store, in-memory engine state, plus a ghost
log of adapter placement invocations (the lead ids passed to
`voipOrchestrator.makeCall`, in order). -/
structure Sys where
  store : Store
  engine : EngineState
  dialLog : List Nat

/-- The `storage.getCampaign`. -/
def getCampaign (st : Store) (cid : Nat) : Option CampaignRec :=
  st.campaigns.find? (fun c => decide (c.id = cid))

/-- The `storage.updateCampaign` with a concrete field update `f`. -/
def updateCampaign (st : Store) (cid : Nat) (f : CampaignRec → CampaignRec) : Store :=
  { st with campaigns := st.campaigns.map (fun c => if c.id = cid then f c else c) }

/-- The `storage.getCampaignLeads`.  Modelled from the spec: leads are returned in
stable creation order. -/
def getCampaignLeads (st : Store) (cid : Nat) : List LeadRec :=
  st.leads.filter (fun l => decide (l.campaignId = cid))

/-- The `storage.getCampaignLeadsByStatus`.  Modelled from the spec: the campaign
leads with the given status, in stable creation order. -/
def getCampaignLeadsByStatus (st : Store) (cid : Nat) (s : LeadStatus) : List LeadRec :=
  st.leads.filter (fun l => decide (l.campaignId = cid ∧ l.status = s))

/-- A call row counts as active.  Modelled from the spec /
`storage.getAllActiveCalls` (which selects `status IN ('queued', 'active')`). -/
def isActiveCallStatus : CallStatus → Bool
  | .queued => true
  | .active => true
  | _ => false

/-- The active call rows of a campaign within a call list.  The campaign
association persisted for an engine-placed call is
`metadata.settings.campaignId` — the only campaign key
`voipOrchestrator.makeCall` writes — so the query matches on it. -/
def activeCallsOf (calls : List CallRec) (cid : Nat) : List CallRec :=
  calls.filter (fun c =>
    c.metadata.settingsCampaignId = some cid && isActiveCallStatus c.status)

/-- The `storage.getActiveCampaignCalls`.  Modelled from the spec: the campaign's
call rows whose status is still active. -/
def getActiveCampaignCalls (st : Store) (cid : Nat) : List CallRec :=
  activeCallsOf st.calls cid

/-- The `activeCallCount(campaignId)` of the spec. -/
def activeCallCount (st : Store) (cid : Nat) : Nat :=
  (getActiveCampaignCalls st cid).length

/-- The `storage.getCall`. -/
def getCall (st : Store) (callId : Nat) : Option CallRec :=
  st.calls.find? (fun c => decide (c.id = callId))

/-- The `storage.updateCall` with a concrete field update `f`. -/
def updateCall (st : Store) (callId : Nat) (f : CallRec → CallRec) : Store :=
  { st with calls := st.calls.map (fun c => if c.id = callId then f c else c) }

/-- The `storage.getCampaignLead` lookup by lead id. -/
def getLead (st : Store) (lid : Nat) : Option LeadRec :=
  st.leads.find? (fun l => decide (l.id = lid))

/-- The `storage.updateCampaignLead` with a concrete field update `f`. -/
def updateCampaignLead (st : Store) (lid : Nat) (f : LeadRec → LeadRec) : Store :=
  { st with leads := st.leads.map (fun l => if l.id = lid then f l else l) }

/-- The `storage.logActivity` (append-only). -/
def logActivity (st : Store) (msg : String) : Store :=
  { st with activityLog := st.activityLog ++ [msg] }

/-- The `isWithinWorkingHours` of the engine.  Translates the source line by line:
day-of-week membership, then `startTime <= currentTime && currentTime <= endTime`
on minutes of the day.  The `timezone` field of the settings is never read
(the source comment says: simplified - assumes same timezone). -/
def isWithinWorkingHours (now : LocalTime) (wh : WorkingHours) : Bool :=
  if !(wh.daysOfWeek.contains now.dayOfWeek) then
    false
  else
    let currentTime := now.hours * 60 + now.minutes
    let startTime := wh.startHour * 60 + wh.startMinute
    let endTime := wh.endHour * 60 + wh.endMinute
    decide (startTime ≤ currentTime) && decide (currentTime ≤ endTime)

/-- JavaScript `array.slice(0, e)` for a possibly negative end index: a
negative `e` counts from the end of the array (clamped at zero). -/
def jsSliceTo (l : List α) (e : Int) : List α :=
  if e < 0 then l.take (l.length - (-e).toNat) else l.take e.toNat

/-- The call row `voipOrchestrator.makeCall` inserts for a dialed lead:
status `queued`, with the engine context (`leadId`, `campaignId`) nested
under `metadata.settings` exactly as the source does.  The top-level
`metadata.leadId` / `metadata.campaignId` keys that `handleCallWebhook`
reads are not among the keys written, so they stay absent. -/
def dialCallRec (st : Store) (campaign : CampaignRec) (lead : LeadRec) : CallRec :=
  { id := st.nextCallId
    tenantId := campaign.tenantId
    agentId := campaign.agentId
    phoneNumber := lead.phoneNumber
    status := .queued
    metadata := { leadId := none, campaignId := none,
                  settingsLeadId := some lead.id,
                  settingsCampaignId := some campaign.id }
    endTime := none }

/-- The `voipOrchestrator.makeCall` on adapter success: inserts one call row and
returns the fresh call id. -/
def makeCallRecord (st : Store) (campaign : CampaignRec) (lead : LeadRec) : Store :=
  { st with calls := st.calls ++ [dialCallRec st campaign lead], nextCallId := st.nextCallId + 1 }

/-- The `processLead(campaign, lead, settings)` of the engine, for one tick at
time `now`.  `place lead.id = none` means the adapter placement succeeded;
`place lead.id = some msg` means `voipOrchestrator.makeCall` threw with
message `msg` (landing in the catch block).  The lead fields written use the
captured `lead` record, exactly as the source does
(`callAttempts: lead.callAttempts + 1`). -/
def processLead (sys : Sys) (campaign : CampaignRec) (lead : LeadRec)
    (settings : CampaignSettings) (now : Int) (place : Nat → Option String) : Sys :=
  if settings.retryAttempts ≤ lead.callAttempts then
    { sys with store := updateCampaignLead sys.store lead.id (fun l =>
        { l with status := .failed, notes := some "Maximum retry attempts reached" }) }
  else if (match lead.lastCallAt with
           | some t => decide (now - t < (settings.retryDelay : Int) * 60 * 1000)
           | none => false) then
    sys
  else
    let sys1 : Sys := { sys with dialLog := sys.dialLog ++ [lead.id] }
    match place lead.id with
    | none =>
      let st := makeCallRecord sys1.store campaign lead
      { sys1 with store := updateCampaignLead st lead.id (fun l =>
          { l with callAttempts := lead.callAttempts + 1, lastCallAt := some now }) }
    | some msg =>
      { sys1 with store := updateCampaignLead sys1.store lead.id (fun l =>
          { l with status := .failed, callAttempts := lead.callAttempts + 1,
                   notes := some msg }) }

/-- The `completeCampaign` of the engine: set status `completed` and `completedAt`,
drop the campaign from the running set, log the activity.  (Called from the
tick; a missing campaign would throw into the tick's catch block, leaving the
state as is.) -/
def completeCampaign (sys : Sys) (cid : Nat) (now : Int) : Sys :=
  match getCampaign sys.store cid with
  | none => sys
  | some campaign =>
    let st := updateCampaign sys.store cid (fun c =>
      { c with status := .completed, completedAt := some now })
    let st := logActivity st ("campaign_completed:" ++ campaign.name)
    { sys with store := st
               engine := { running := sys.engine.running.filter (fun r => decide (r ≠ cid)) } }

/-- One firing of the `setInterval` callback installed by
`processCampaignLeads`.  `campaign`/`settings` are the records captured by the
closure when the loop started; since no modelled operation ever rewrites a
campaign's settings, they are read back from the store here.  The body is a
line-by-line translation: running-set check, working-hours gate, pending
leads, active calls, `availableSlots` slice, per-lead processing, completion
check, progress update. -/
def tick (sys : Sys) (cid : Nat) (now : Int) (nowLocal : LocalTime)
    (place : Nat → Option String) : Sys :=
  match getCampaign sys.store cid with
  | none => sys
  | some campaign =>
    let settings := campaign.settings
    if !(decide (cid ∈ sys.engine.running)) then
      sys
    else if !(isWithinWorkingHours nowLocal settings.workingHours) then
      sys
    else
      let pendingLeads := getCampaignLeadsByStatus sys.store cid .pending
      let activeCalls := getActiveCampaignCalls sys.store cid
      let availableSlots : Int := (settings.maxConcurrentCalls : Int) - activeCalls.length
      let leadsToProcess := jsSliceTo pendingLeads availableSlots
      let sys1 := leadsToProcess.foldl
        (fun s l => processLead s campaign l settings now place) sys
      let allLeads := getCampaignLeads sys1.store cid
      let completedLs := allLeads.filter (fun l =>
        decide (l.status = .contacted ∨ l.status = .failed))
      if completedLs.length = allLeads.length then
        completeCampaign sys1 cid now
      else
        { sys1 with store := updateCampaign sys1.store cid (fun c =>
            { c with completedLeads := completedLs.length,
                     successfulCalls := (allLeads.filter (fun l =>
                       decide (l.status = .contacted))).length }) }

/-- The `startCampaign` of the engine.  Throws when the campaign is in the
in-memory running set, missing from the store, or in a status other than
`draft`/`scheduled`; otherwise sets the campaign running, records `startedAt`,
adds it to the running set (the interval it installs is modelled by `tick`
events guarded by running-set membership) and logs the activity. -/
def startCampaign (sys : Sys) (cid : Nat) (now : Int) : Except String Sys :=
  if decide (cid ∈ sys.engine.running) then
    .error "Campaign is already running"
  else
    match getCampaign sys.store cid with
    | none => .error "Campaign not found"
    | some campaign =>
      if decide (campaign.status ≠ .draft) && decide (campaign.status ≠ .scheduled) then
        .error "Campaign cannot be started in current status"
      else
        let st := updateCampaign sys.store cid (fun c =>
          { c with status := .running, startedAt := some now })
        let st := logActivity st ("campaign_started:" ++ campaign.name)
        .ok { sys with store := st
                       engine := { running := sys.engine.running ++ [cid] } }

/-- The `pauseCampaign` of the engine: fails only when the campaign is missing;
otherwise sets status `paused` (whatever the current status), removes the id
from the running set, clears the interval, logs the activity. -/
def pauseCampaign (sys : Sys) (cid : Nat) : Except String Sys :=
  match getCampaign sys.store cid with
  | none => .error "Campaign not found"
  | some campaign =>
    let st := updateCampaign sys.store cid (fun c => { c with status := .paused })
    let st := logActivity st ("campaign_paused:" ++ campaign.name)
    .ok { sys with store := st
                   engine := { running := sys.engine.running.filter (fun r => decide (r ≠ cid)) } }

/-- The lead data accepted by `createCampaign` (contact fields beyond the
phone number do not influence the engine and are elided). -/
structure LeadData where
  phoneNumber : String
deriving DecidableEq

/-- The argument record of `createCampaign`. -/
structure CreateData where
  tenantId : String
  agentId : String
  name : String
  leads : List LeadData
  settings : CampaignSettings
  scheduledAt : Option Int
deriving DecidableEq

/-- The fresh campaign row created by `storage.createCampaign`. -/
def newCampaignRec (st : Store) (d : CreateData) : CampaignRec :=
  { id := st.nextCampaignId
    tenantId := d.tenantId
    agentId := d.agentId
    name := d.name
    status := .draft
    totalLeads := d.leads.length
    completedLeads := 0
    successfulCalls := 0
    settings := d.settings
    scheduledAt := d.scheduledAt
    startedAt := none
    completedAt := none }

/-- The `storage.createCampaign`.  Modelled from the spec: a fresh row in the
state diagram's initial status `draft`, with `totalLeads` from the input and
zeroed progress counters. -/
def storeCreateCampaign (st : Store) (d : CreateData) : Store × CampaignRec :=
  ({ st with campaigns := st.campaigns ++ [newCampaignRec st d]
             nextCampaignId := st.nextCampaignId + 1 },
   newCampaignRec st d)

/-- The `storage.createCampaignLead`.  Modelled from the spec: a fresh lead row in
initial status `pending` with `callAttempts = 0` and `lastCallAt` unset. -/
def storeCreateLead (st : Store) (cid : Nat) (d : LeadData) : Store :=
  let l : LeadRec :=
    { id := st.nextLeadId
      campaignId := cid
      phoneNumber := d.phoneNumber
      status := .pending
      callAttempts := 0
      lastCallAt := none
      notes := none
      callDuration := none
      callTranscript := none
      callSentiment := none }
  { st with leads := st.leads ++ [l], nextLeadId := st.nextLeadId + 1 }

/-- The `createCampaign` of the engine: create the campaign row, bulk-create the
leads, then auto-start when `scheduledAt` is absent or not in the future
(a start failure would reject the promise after the rows are already
persisted, so the partial state is kept); a future `scheduledAt` only arms a
timer (`scheduleCampaign`), modelled by a later `start` event. -/
def createCampaign (sys : Sys) (d : CreateData) (now : Int) : Sys :=
  let p := storeCreateCampaign sys.store d
  let st := d.leads.foldl (fun s ld => storeCreateLead s p.2.id ld) p.1
  let sys1 : Sys := { sys with store := st }
  if (match d.scheduledAt with
      | none => true
      | some t => decide (t ≤ now)) then
    match startCampaign sys1 p.2.id now with
    | .ok s => s
    | .error _ => sys1
  else
    sys1

/-- The normalized webhook payload fields read by `handleCallWebhook`. -/
structure WebhookData where
  duration : Option Nat
  transcript : Option String
  sentiment : Option String
  error : Option String
deriving DecidableEq

/-- Partial-update semantics of `storage.updateCampaignLead` for an optional
payload field: an absent (`undefined`) value leaves the column unchanged. -/
def setIfPresent (new : Option α) (old : Option α) : Option α :=
  match new with
  | some v => some v
  | none => old

/-- The lead update of the `answered` webhook case. -/
def applyAnswered (data : WebhookData) (l : LeadRec) : LeadRec :=
  { l with status := .answered
           callDuration := setIfPresent data.duration l.callDuration
           callTranscript := setIfPresent data.transcript l.callTranscript
           callSentiment := setIfPresent data.sentiment l.callSentiment }

/-- The lead update of the `busy` / `no-answer` webhook cases. -/
def applyBusy (l : LeadRec) : LeadRec :=
  { l with status := .pending }

/-- The lead update of the `completed` webhook case. -/
def applyCompleted (data : WebhookData) (l : LeadRec) : LeadRec :=
  { l with status := .contacted
           callDuration := setIfPresent data.duration l.callDuration
           callTranscript := setIfPresent data.transcript l.callTranscript
           callSentiment := setIfPresent data.sentiment l.callSentiment }

/-- The lead update of the `failed` webhook case. -/
def applyFailed (data : WebhookData) (l : LeadRec) : LeadRec :=
  { l with status := .failed
           notes := some (match data.error with
                          | some e => e
                          | none => "Call failed") }

/-- The `handleCallWebhook(callId, status, data)` of the engine: resolve the call,
then switch on the event status string and overwrite the lead row; unknown
call ids, calls without `metadata.leadId`, and unrecognized statuses fall
through without touching the store.  The call row itself is never updated. -/
def handleCallWebhook (st : Store) (callId : Nat) (status : String)
    (data : WebhookData) : Store :=
  match getCall st callId with
  | none => st
  | some call =>
    match call.metadata.leadId with
    | none => st
    | some leadId =>
      if status = "answered" then
        updateCampaignLead st leadId (applyAnswered data)
      else if status = "busy" ∨ status = "no-answer" then
        updateCampaignLead st leadId applyBusy
      else if status = "completed" then
        updateCampaignLead st leadId (applyCompleted data)
      else if status = "failed" then
        updateCampaignLead st leadId (applyFailed data)
      else
        st

/-- The call-end route of `server/routes.ts` (`POST /api/calls/:callId/end`):
marks the call row completed with an end time. -/
def endCallRoute (st : Store) (callId : Nat) (now : Int) : Store :=
  updateCall st callId (fun c => { c with status := .completed, endTime := some now })

/-- Campaign progress as computed by `getCampaignProgress` (counters derived
from the lead rows, not from the campaign row).  `Math.round` on the percent
ratio is modelled exactly on rationals as `(200 * completed + total) / (2 * total)`. -/
structure CampaignProgress where
  status : CampaignStatus
  totalLeads : Nat
  completedLeads : Nat
  successfulCalls : Nat
  failedCalls : Nat
  progress : Nat
deriving DecidableEq

/-- The `getCampaignProgress` of the engine. -/
def getCampaignProgress (st : Store) (cid : Nat) : Option CampaignProgress :=
  (getCampaign st cid).map (fun campaign =>
    let leads := getCampaignLeads st cid
    let completedLs := leads.filter (fun l =>
      decide (l.status = .contacted ∨ l.status = .failed))
    let successfulLs := leads.filter (fun l => decide (l.status = .contacted))
    { status := campaign.status
      totalLeads := campaign.totalLeads
      completedLeads := completedLs.length
      successfulCalls := successfulLs.length
      failedCalls := completedLs.length - successfulLs.length
      progress := if 0 < campaign.totalLeads then
          (200 * completedLs.length + campaign.totalLeads) / (2 * campaign.totalLeads)
        else 0 })

/-- The observable events of the system: the exposed engine operations, one
tick of a running campaign's interval, an inbound provider webhook, and the
call-end route. -/
inductive Event where
  | create (d : CreateData) (now : Int)
  | start (cid : Nat) (now : Int)
  | pause (cid : Nat)
  | tick (cid : Nat) (now : Int) (nowLocal : LocalTime) (place : Nat → Option String)
  | webhook (callId : Nat) (status : String) (data : WebhookData)
  | endCall (callId : Nat) (now : Int)

/-- One system step; a lifecycle call that throws leaves the state unchanged. -/
def step (sys : Sys) : Event → Sys
  | .create d now => createCampaign sys d now
  | .start cid now =>
    match startCampaign sys cid now with
    | .ok s => s
    | .error _ => sys
  | .pause cid =>
    match pauseCampaign sys cid with
    | .ok s => s
    | .error _ => sys
  | .tick cid now nowLocal place => tick sys cid now nowLocal place
  | .webhook callId status data =>
    { sys with store := handleCallWebhook sys.store callId status data }
  | .endCall callId now =>
    { sys with store := endCallRoute sys.store callId now }

/-- The empty initial system. -/
def init : Sys :=
  { store := { campaigns := [], leads := [], calls := [], activityLog := []
               nextCampaignId := 0, nextLeadId := 0, nextCallId := 0 }
    engine := { running := [] }
    dialLog := [] }

/-- States reachable from the empty system by engine operations, ticks,
webhooks and call-end requests. -/
inductive Reachable : Sys → Prop where
  | init : Reachable init
  | step {s : Sys} (e : Event) : Reachable s → Reachable (step s e)

/-- Run a list of events from a state. -/
def run (sys : Sys) (es : List Event) : Sys :=
  es.foldl step sys

/-- Whether `processLead` reaches the adapter placement call for this lead:
the captured lead record passes the retry-budget check and the retry-delay
check of the source. -/
def wouldDial (settings : CampaignSettings) (now : Int) (l : LeadRec) : Bool :=
  decide (l.callAttempts < settings.retryAttempts) &&
  (match l.lastCallAt with
   | some t => decide ((settings.retryDelay : Int) * 60 * 1000 ≤ now - t)
   | none => true)

/-- Written from the spec text of C3: a lead is dispatch-eligible when
`status == pending`, `callAttempts < retryAttempts`, and `lastCallAt` is unset
or `now - lastCallAt >= retryDelay`. -/
def specEligibleLead (settings : CampaignSettings) (now : Int) (l : LeadRec) : Bool :=
  decide (l.status = .pending) && decide (l.callAttempts < settings.retryAttempts) &&
  (match l.lastCallAt with
   | none => true
   | some t => decide ((settings.retryDelay : Int) * 60 * 1000 ≤ now - t))

/-- Written from the spec text of C7: `allowed(now, workingHours)` checks
`dayOfWeek ∈ daysOfWeek` and `minuteOfDay ∈ [start, end)` (half-open). -/
def specAllowed (now : LocalTime) (wh : WorkingHours) : Bool :=
  decide (now.dayOfWeek ∈ wh.daysOfWeek) &&
  decide (wh.startHour * 60 + wh.startMinute ≤ now.hours * 60 + now.minutes) &&
  decide (now.hours * 60 + now.minutes < wh.endHour * 60 + wh.endMinute)

/-- The inductive system invariant: fresh-id discipline for campaigns, calls,
leads and the running set, and the concurrency bound for every campaign the
store resolves by id. -/
structure Inv (sys : Sys) : Prop where
  campIds : ∀ c ∈ sys.store.campaigns, c.id < sys.store.nextCampaignId
  callCamps : ∀ c ∈ sys.store.calls, ∀ k,
    c.metadata.settingsCampaignId = some k → k < sys.store.nextCampaignId
  callsNoLead : ∀ c ∈ sys.store.calls, c.metadata.leadId = none
  leadCamps : ∀ l ∈ sys.store.leads, l.campaignId < sys.store.nextCampaignId
  runIds : ∀ r ∈ sys.engine.running, r < sys.store.nextCampaignId
  bound : ∀ cid c, getCampaign sys.store cid = some c →
    activeCallCount sys.store cid ≤ c.settings.maxConcurrentCalls

/-! Section: Concrete fixtures used by counterexamples and witnesses -/

/-- A working-hours window that admits every day and almost every minute. -/
def whAll : WorkingHours := ⟨0, 0, 23, 59, "UTC", [0, 1, 2, 3, 4, 5, 6]⟩

/-- A Monday 09:00-17:00 weekday window. -/
def whBiz : WorkingHours := ⟨9, 0, 17, 0, "UTC", [1, 2, 3, 4, 5]⟩

/-- Monday 10:00 local reading. -/
def locMon : LocalTime := ⟨1, 10, 0⟩

/-- Sunday 10:00 local reading. -/
def locSun : LocalTime := ⟨0, 10, 0⟩

/-- Placement oracle: every adapter call succeeds. -/
def placeAll : Nat → Option String := fun _ => none

/-- Placement oracle: every adapter call throws with message `boom`. -/
def placeBoom : Nat → Option String := fun _ => some "boom"

/-- Webhook payload with call results attached. -/
def dataC : WebhookData := ⟨some 120, some "hello", some "good", none⟩

/-- Webhook payload with no optional fields. -/
def dataN : WebhookData := ⟨none, none, none, none⟩

/-- Campaign settings: one concurrent call, `retryDelay` one minute. -/
def settingsA (retry : Nat) : CampaignSettings := ⟨1, retry, 1, whAll, "twilio"⟩

/-- Three-lead campaign input for the Scenario A claims. -/
def d3 (retry : Nat) : CreateData :=
  ⟨"t1", "a1", "camp", [⟨"p1"⟩, ⟨"p2"⟩, ⟨"p3"⟩], settingsA retry, none⟩

/-- C2 counterexample state: the three-lead `retryAttempts = 0` campaign
after its first in-hours tick. -/
def c2ce : Sys := run init [.create (d3 0) 0, .tick 0 1000 locMon placeAll]

/-- The Scenario A event schedule with `retryAttempts = 1`: each dialed call
is ended through the call-end route and a completed webhook for it is
delivered; since the webhook cannot resolve the lead (the lead reference is
nested under `metadata.settings`), the following tick terminally fails the
still-pending dialed lead on retry exhaustion before the next lead is
dialed, and a final tick performs the completion check. -/
def c2Events : List Event :=
  [ .create (d3 1) 0,
    .tick 0 1000 locMon placeAll,
    .endCall 0 2000,
    .webhook 0 "completed" dataC,
    .tick 0 3000 locMon placeAll,
    .tick 0 4000 locMon placeAll,
    .endCall 1 5000,
    .webhook 1 "completed" dataC,
    .tick 0 6000 locMon placeAll,
    .tick 0 7000 locMon placeAll,
    .endCall 2 8000,
    .webhook 2 "completed" dataC,
    .tick 0 9000 locMon placeAll ]

/-- Final state of the Scenario A schedule. -/
def c2fin : Sys := run init c2Events

/-- Settings for the C3 counterexample: one concurrent call, two attempts,
sixty minutes retry delay. -/
def settingsC3 : CampaignSettings := ⟨1, 2, 60, whAll, "twilio"⟩

/-- Two-lead campaign input for the C3 counterexample. -/
def dC3 : CreateData := ⟨"t1", "a1", "camp", [⟨"p1"⟩, ⟨"p2"⟩], settingsC3, none⟩

/-- C3 counterexample mid state: lead 0 was dialed at t = 1000 and its call
ended; the busy webhook for it is a no-op (and lead 0 never left `pending`
anyway), so lead 0 is pending with a recent `lastCallAt` while lead 1 was
never dialed. -/
def c3mid : Sys := run init
  [ .create dC3 0,
    .tick 0 1000 locMon placeAll,
    .endCall 0 2000,
    .webhook 0 "busy" dataN ]

/-- C3 counterexample final state: a tick ten minutes later (before the
sixty-minute retry delay of lead 0 has elapsed). -/
def c3fin : Sys := step c3mid (.tick 0 601000 locMon placeAll)

/-- One-lead campaign input with `retryAttempts = 3` for the C4
counterexample. -/
def dC4 : CreateData := ⟨"t1", "a1", "camp", [⟨"p1"⟩], ⟨1, 3, 1, whAll, "twilio"⟩, none⟩

/-- C4 counterexample state: the first placement attempt throws. -/
def c4fin : Sys := run init [.create dC4 0, .tick 0 1000 locMon placeBoom]

/-- One-lead campaign input for the C5 witness. -/
def dC5 : CreateData := ⟨"t1", "a1", "camp", [⟨"p1"⟩], settingsA 1, none⟩

/-- C5 witness state: lead 0 was dialed, its call ended, and the next tick
terminally failed it on retry exhaustion — a reachable state holding a call
row and a lead in the terminal status `failed`. -/
def c5w : Sys := run init
  [ .create dC5 0,
    .tick 0 1000 locMon placeAll,
    .endCall 0 2000,
    .tick 0 3000 locMon placeAll ]

/-- Campaign input with a future `scheduledAt` for the C6 counterexample. -/
def dC6 : CreateData := ⟨"t1", "a1", "camp", [⟨"p1"⟩], settingsA 1, some 5000⟩

/-- C6 counterexample state: the campaign is created at t = 0 scheduled for
t = 5000, so it is persisted in status draft and not started. -/
def c6a : Sys := step init (.create dC6 0)

/-- C6 counterexample state after pausing the draft campaign. -/
def c6b : Sys := step c6a (.pause 0)

/-- Empty-lead campaign input (within `whBiz` working hours) for the C10
counterexample. -/
def dEmptyBiz : CreateData := ⟨"t1", "a1", "camp", [], ⟨1, 1, 1, whBiz, "twilio"⟩, none⟩

/-- C10 counterexample state: empty-lead campaign created with no
`scheduledAt` (auto-started). -/
def c10a : Sys := step init (.create dEmptyBiz 0)

/-- C10 counterexample final state: the first tick fires on a Sunday,
outside the working-hours window. -/
def c10b : Sys := step c10a (.tick 0 1000 locSun placeAll)

/-- Empty-lead campaign input with the always-open window, for the C10
witness. -/
def dEmptyAll : CreateData := ⟨"t1", "a1", "camp", [], settingsA 1, none⟩

/-- A reachable one-campaign state used by witnesses. -/
def sys1 : Sys := step init (.create (d3 1) 0)

/-! Section: Helper lemmas -/

theorem find?_append_cases (p : α → Bool) (l1 l2 : List α) :
    (l1 ++ l2).find? p =
      match l1.find? p with
      | some a => some a
      | none => l2.find? p := by
  induction l1 with
  | nil => simp
  | cons a l ih =>
    by_cases h : p a = true
    · simp [List.find?, h]
    · simp only [Bool.not_eq_true] at h
      simp [List.find?, h, ih]

theorem find?_map_pred (g : α → α) (p : α → Bool) (h : ∀ x, p (g x) = p x)
    (l : List α) : (l.map g).find? p = (l.find? p).map g := by
  induction l with
  | nil => simp
  | cons a l ih =>
    by_cases ha : p a = true
    · simp [List.find?, h, ha]
    · simp only [Bool.not_eq_true] at ha
      simp [List.find?, h, ha, ih]

theorem length_filter_map_le (g : α → α) (p : α → Bool)
    (h : ∀ x, p (g x) = true → p x = true) (l : List α) :
    ((l.map g).filter p).length ≤ (l.filter p).length := by
  induction l with
  | nil => simp
  | cons a l ih =>
    by_cases ha : p (g a) = true
    · simp [List.filter, ha, h a ha]
      omega
    · simp only [Bool.not_eq_true] at ha
      by_cases hb : p a = true <;> simp [List.filter, ha, hb] <;> omega

theorem getCampaign_mem {st : Store} {cid : Nat} {c : CampaignRec}
    (h : getCampaign st cid = some c) : c ∈ st.campaigns ∧ c.id = cid := by
  refine ⟨List.mem_of_find?_eq_some h, ?_⟩
  have := List.find?_some h
  simpa using this

theorem getCampaign_updateCampaign (st : Store) (cid2 : Nat)
    (f : CampaignRec → CampaignRec) (hid : ∀ c, (f c).id = c.id) (cid : Nat) :
    getCampaign (updateCampaign st cid2 f) cid =
      (getCampaign st cid).map (fun c => if c.id = cid2 then f c else c) := by
  unfold getCampaign updateCampaign
  exact find?_map_pred _ _ (fun c => by by_cases h : c.id = cid2 <;> simp [h, hid]) _

theorem getLead_updateCampaignLead (st : Store) (lid2 : Nat)
    (f : LeadRec → LeadRec) (hid : ∀ l, (f l).id = l.id) (lid : Nat) :
    getLead (updateCampaignLead st lid2 f) lid =
      (getLead st lid).map (fun l => if l.id = lid2 then f l else l) := by
  unfold getLead updateCampaignLead
  exact find?_map_pred _ _ (fun l => by by_cases h : l.id = lid2 <;> simp [h, hid]) _

theorem getLead_mem {st : Store} {lid : Nat} {l : LeadRec}
    (h : getLead st lid = some l) : l ∈ st.leads ∧ l.id = lid := by
  refine ⟨List.mem_of_find?_eq_some h, ?_⟩
  have := List.find?_some h
  simpa using this

theorem getLead_updateCampaignLead_self {st : Store} {lid : Nat}
    {f : LeadRec → LeadRec} {l0 : LeadRec} (hid : ∀ l, (f l).id = l.id)
    (hl : getLead st lid = some l0) :
    getLead (updateCampaignLead st lid f) lid = some (f l0) := by
  rw [getLead_updateCampaignLead st lid f hid lid, hl]
  obtain ⟨-, h⟩ := getLead_mem hl
  simp [h]

/-! Section: Webhook reconciler lemmas -/

theorem handleCallWebhook_resolved (st : Store) (callId : Nat) (status : String)
    (data : WebhookData) (call : CallRec) (lid : Nat)
    (hc : getCall st callId = some call) (hl : call.metadata.leadId = some lid) :
    handleCallWebhook st callId status data =
      (if status = "answered" then updateCampaignLead st lid (applyAnswered data)
       else if status = "busy" ∨ status = "no-answer" then updateCampaignLead st lid applyBusy
       else if status = "completed" then updateCampaignLead st lid (applyCompleted data)
       else if status = "failed" then updateCampaignLead st lid (applyFailed data)
       else st) := by
  simp only [handleCallWebhook, hc, hl]

theorem handleCallWebhook_unknown (st : Store) (callId : Nat) (status : String)
    (data : WebhookData) (hc : getCall st callId = none) :
    handleCallWebhook st callId status data = st := by
  simp only [handleCallWebhook, hc]

theorem handleCallWebhook_noLead (st : Store) (callId : Nat) (status : String)
    (data : WebhookData) (call : CallRec)
    (hc : getCall st callId = some call) (hl : call.metadata.leadId = none) :
    handleCallWebhook st callId status data = st := by
  simp only [handleCallWebhook, hc, hl]

theorem updateCampaignLead_calls (st : Store) (lid : Nat) (f : LeadRec → LeadRec) :
    (updateCampaignLead st lid f).calls = st.calls := rfl

theorem handleCallWebhook_calls (st : Store) (callId : Nat) (status : String)
    (data : WebhookData) :
    (handleCallWebhook st callId status data).calls = st.calls := by
  cases hc : getCall st callId with
  | none => rw [handleCallWebhook_unknown st callId status data hc]
  | some call =>
    cases hl : call.metadata.leadId with
    | none => rw [handleCallWebhook_noLead st callId status data call hc hl]
    | some lid =>
      rw [handleCallWebhook_resolved st callId status data call lid hc hl]
      split_ifs <;> rfl

theorem setIfPresent_idem (a b : Option α) :
    setIfPresent a (setIfPresent a b) = setIfPresent a b := by
  cases a <;> rfl

theorem updateCampaignLead_idem (st : Store) (lid : Nat) (f : LeadRec → LeadRec)
    (hid : ∀ l, (f l).id = l.id) (hf : ∀ l, f (f l) = f l) :
    updateCampaignLead (updateCampaignLead st lid f) lid f = updateCampaignLead st lid f := by
  unfold updateCampaignLead
  simp only [List.map_map]
  congr 1
  apply List.map_congr_left
  intro a _
  by_cases h : a.id = lid
  · simp [Function.comp, h, hid, hf]
  · simp [Function.comp, h]

theorem applyAnswered_id (data : WebhookData) (l : LeadRec) :
    (applyAnswered data l).id = l.id := rfl

theorem applyBusy_id (l : LeadRec) : (applyBusy l).id = l.id := rfl

theorem applyCompleted_id (data : WebhookData) (l : LeadRec) :
    (applyCompleted data l).id = l.id := rfl

theorem applyFailed_id (data : WebhookData) (l : LeadRec) :
    (applyFailed data l).id = l.id := rfl

theorem applyAnswered_idem (data : WebhookData) (l : LeadRec) :
    applyAnswered data (applyAnswered data l) = applyAnswered data l := by
  simp [applyAnswered, setIfPresent_idem]

theorem applyBusy_idem (l : LeadRec) : applyBusy (applyBusy l) = applyBusy l := rfl

theorem applyCompleted_idem (data : WebhookData) (l : LeadRec) :
    applyCompleted data (applyCompleted data l) = applyCompleted data l := by
  simp [applyCompleted, setIfPresent_idem]

theorem applyFailed_idem (data : WebhookData) (l : LeadRec) :
    applyFailed data (applyFailed data l) = applyFailed data l := rfl

/-- C9: for every webhook payload and every starting store state, applying
`handleCallWebhook` twice with the same call id, event status and payload
yields the same lead/call state as applying it once. -/
theorem c9_webhook_idempotent (st : Store) (callId : Nat) (status : String)
    (data : WebhookData) :
    handleCallWebhook (handleCallWebhook st callId status data) callId status data =
      handleCallWebhook st callId status data := by
  have hget : getCall (handleCallWebhook st callId status data) callId = getCall st callId := by
    unfold getCall
    rw [handleCallWebhook_calls]
  cases hc : getCall st callId with
  | none =>
    rw [handleCallWebhook_unknown st callId status data hc,
        handleCallWebhook_unknown st callId status data hc]
  | some call =>
    cases hl : call.metadata.leadId with
    | none =>
      rw [handleCallWebhook_noLead st callId status data call hc hl,
          handleCallWebhook_noLead st callId status data call hc hl]
    | some lid =>
      have h1 := handleCallWebhook_resolved st callId status data call lid hc hl
      have h2 := handleCallWebhook_resolved (handleCallWebhook st callId status data)
        callId status data call lid (by rw [hget, hc]) hl
      rw [h2, h1]
      split_ifs
      · exact updateCampaignLead_idem _ _ _ (applyAnswered_id data) (applyAnswered_idem data)
      · exact updateCampaignLead_idem _ _ _ applyBusy_id applyBusy_idem
      · exact updateCampaignLead_idem _ _ _ (applyCompleted_id data) (applyCompleted_idem data)
      · exact updateCampaignLead_idem _ _ _ (applyFailed_id data) (applyFailed_idem data)
      · rfl

/-! Section: Working-hours evaluator -/

/-- C7 counterexample: at Monday 17:00 with a 09:00-17:00 Monday window the
evaluator returns true although the minute of day equals `end`, so it is not
the half-open-interval predicate the claim describes. -/
theorem c7_counterexample :
    isWithinWorkingHours ⟨1, 17, 0⟩ ⟨9, 0, 17, 0, "UTC", [1]⟩ = true ∧
    specAllowed ⟨1, 17, 0⟩ ⟨9, 0, 17, 0, "UTC", [1]⟩ = false := by
  decide

/-- C7 amended: the evaluator returns true exactly when the day of week is in
`daysOfWeek` and the minute of day lies in the closed interval
`[start, end]` (so it also returns true when the minute equals `end`), and it
never reads the `timezone` field (no timezone conversion is performed). -/
theorem c7_working_hours_closed_interval (now : LocalTime) (wh : WorkingHours)
    (tz : String) :
    (isWithinWorkingHours now wh = true ↔
      now.dayOfWeek ∈ wh.daysOfWeek ∧
      wh.startHour * 60 + wh.startMinute ≤ now.hours * 60 + now.minutes ∧
      now.hours * 60 + now.minutes ≤ wh.endHour * 60 + wh.endMinute) ∧
    isWithinWorkingHours now { wh with timezone := tz } = isWithinWorkingHours now wh := by
  constructor
  · unfold isWithinWorkingHours
    by_cases h : now.dayOfWeek ∈ wh.daysOfWeek <;> simp [h]
  · rfl

/-! Section: Campaign lifecycle -/

/-- C6 counterexample: a campaign persisted in status draft (created with a
future `scheduledAt`) is successfully paused — `pauseCampaign` performs no
status check, where the claim requires a StateError — and the paused campaign
cannot be started again, where the claim requires `start()`/`resume()` to
succeed from paused. -/
theorem c6_counterexample :
    (getCampaign c6a.store 0).map (fun c => c.status) = some .draft ∧
    (pauseCampaign c6a 0).isOk = true ∧
    (getCampaign c6b.store 0).map (fun c => c.status) = some .paused ∧
    (startCampaign c6b 0 9000).isOk = false := by
  refine ⟨?_, ?_, ?_, ?_⟩ <;> decide

/-- C6 amended: `startCampaign` succeeds exactly when the campaign id is not
in the in-memory running set and the stored campaign exists in status draft
or scheduled (so a second start of a running campaign is rejected, but so is
any resume from paused), while `pauseCampaign` succeeds for every existing
campaign whatever its status. -/
theorem c6_lifecycle_guards (sys : Sys) (cid : Nat) (now : Int) :
    ((startCampaign sys cid now).isOk = true ↔
      cid ∉ sys.engine.running ∧
      ∃ c, getCampaign sys.store cid = some c ∧
        (c.status = .draft ∨ c.status = .scheduled)) ∧
    ((pauseCampaign sys cid).isOk = true ↔
      ∃ c, getCampaign sys.store cid = some c) := by
  constructor
  · unfold startCampaign
    by_cases hr : cid ∈ sys.engine.running
    · simp [hr, Except.isOk, Except.toBool]
    · cases hc : getCampaign sys.store cid with
      | none => simp [hr, hc, Except.isOk, Except.toBool]
      | some c =>
        by_cases hd : c.status = .draft
        · simp [hr, hc, hd, Except.isOk, Except.toBool]
        · by_cases hs : c.status = .scheduled <;>
            simp [hr, hc, hd, hs, Except.isOk, Except.toBool]
  · unfold pauseCampaign
    cases hc : getCampaign sys.store cid with
    | none => simp [hc, Except.isOk, Except.toBool]
    | some c => simp [hc, Except.isOk, Except.toBool]

/-! Section: Dispatcher lemmas -/

theorem processLead_dialLog (sys : Sys) (camp : CampaignRec) (lead : LeadRec)
    (stg : CampaignSettings) (now : Int) (place : Nat → Option String) :
    (processLead sys camp lead stg now place).dialLog =
      sys.dialLog ++ (if wouldDial stg now lead then [lead.id] else []) := by
  unfold processLead
  by_cases h1 : stg.retryAttempts ≤ lead.callAttempts
  · have : wouldDial stg now lead = false := by
      unfold wouldDial
      simp [Nat.not_lt.mpr h1]
    simp [h1, this]
  · cases hlast : lead.lastCallAt with
    | none =>
      have hw : wouldDial stg now lead = true := by
        unfold wouldDial
        simp [hlast, Nat.lt_of_not_le h1]
      cases hp : place lead.id <;> simp [h1, hlast, hp, hw]
    | some t =>
      by_cases h2 : now - t < (stg.retryDelay : Int) * 60 * 1000
      · have hw : wouldDial stg now lead = false := by
          unfold wouldDial
          simp [hlast, h2]

        simp [h1, hlast, h2, hw]
      · have hw : wouldDial stg now lead = true := by
          unfold wouldDial
          simp [hlast, Nat.lt_of_not_le h1, le_of_not_lt h2]
        cases hp : place lead.id <;> simp [h1, hlast, h2, hp, hw]

theorem foldl_processLead_dialLog (camp : CampaignRec) (stg : CampaignSettings)
    (now : Int) (place : Nat → Option String) (L : List LeadRec) (sys : Sys) :
    (L.foldl (fun s l => processLead s camp l stg now place) sys).dialLog =
      sys.dialLog ++ (L.filter (wouldDial stg now)).map (fun l => l.id) := by
  induction L generalizing sys with
  | nil => simp
  | cons a L ih =>
    rw [List.foldl_cons, ih, processLead_dialLog]
    by_cases h : wouldDial stg now a <;> simp [h, List.filter_cons]

theorem completeCampaign_dialLog (sys : Sys) (cid : Nat) (now : Int) :
    (completeCampaign sys cid now).dialLog = sys.dialLog := by
  unfold completeCampaign
  cases getCampaign sys.store cid <;> rfl

theorem jsSliceTo_nil (e : Int) : jsSliceTo ([] : List α) e = [] := by
  simp [jsSliceTo]

theorem jsSliceTo_zero (l : List α) : jsSliceTo l 0 = [] := by
  simp [jsSliceTo]

theorem completeCampaign_calls (sys : Sys) (cid : Nat) (now : Int) :
    (completeCampaign sys cid now).store.calls = sys.store.calls := by
  unfold completeCampaign
  cases getCampaign sys.store cid <;> rfl

theorem tick_not_running (sys : Sys) (cid : Nat) (now : Int) (loc : LocalTime)
    (place : Nat → Option String) (hr : cid ∉ sys.engine.running) :
    tick sys cid now loc place = sys := by
  cases hc : getCampaign sys.store cid with
  | none => simp [tick, hc]
  | some c => simp [tick, hc, hr]

theorem tick_out_of_hours (sys : Sys) (cid : Nat) (now : Int) (loc : LocalTime)
    (place : Nat → Option String) (c : CampaignRec)
    (hc : getCampaign sys.store cid = some c)
    (hwh : isWithinWorkingHours loc c.settings.workingHours = false) :
    tick sys cid now loc place = sys := by
  simp only [tick, hc]
  by_cases hr : cid ∈ sys.engine.running
  · simp [hr, hwh]
  · simp [hr]

/-- C3 counterexample: with capacity 1 free (no active call), a running
campaign, an in-hours tick, and lead 1 dispatch-eligible in the spec's sense,
the tick at t = 601000 issues zero placement calls, because the slice is
taken from all pending leads and is filled by lead 0, whose retry delay has
not yet elapsed — where the claim requires the eligible lead 1 to be called. -/
theorem c3_counterexample :
    c3mid.dialLog = [0] ∧
    c3fin.dialLog = [0] ∧
    (getCampaign c3mid.store 0).map (fun c => c.status) = some .running ∧
    isWithinWorkingHours locMon settingsC3.workingHours = true ∧
    activeCallCount c3mid.store 0 = 0 ∧
    (getLead c3mid.store 1).map (specEligibleLead settingsC3 601000) = some true ∧
    (getLead c3fin.store 1).map (fun l => l.callAttempts) = some 0 := by
  refine ⟨?_, ?_, ?_, ?_, ?_, ?_, ?_⟩ <;> decide

/-- C3 amended: on each in-hours tick of a running campaign the engine slices
the first `maxConcurrentCalls - activeCallCount` leads from all *pending*
leads in creation order — without filtering by retry budget or retry delay —
and the adapter is invoked exactly for the sliced leads that pass the
per-lead retry-budget and retry-delay checks; a pending lead that fails those
checks still consumes a selection slot, and eligible leads beyond the slice
receive no call that tick. -/
theorem c3_tick_selects_pending_slice (sys : Sys) (cid : Nat) (now : Int)
    (loc : LocalTime) (place : Nat → Option String) (c : CampaignRec)
    (hc : getCampaign sys.store cid = some c)
    (hrun : cid ∈ sys.engine.running)
    (hwh : isWithinWorkingHours loc c.settings.workingHours = true) :
    (tick sys cid now loc place).dialLog =
      sys.dialLog ++
        ((jsSliceTo (getCampaignLeadsByStatus sys.store cid .pending)
            ((c.settings.maxConcurrentCalls : Int) -
              (getActiveCampaignCalls sys.store cid).length)).filter
          (wouldDial c.settings now)).map (fun l => l.id) := by
  have h1 : (!decide (cid ∈ sys.engine.running)) = false := by simp [hrun]
  have h2 : (!isWithinWorkingHours loc c.settings.workingHours) = false := by simp [hwh]
  simp only [tick, hc, h1, h2, Bool.false_eq_true, if_false]
  split
  · rw [completeCampaign_dialLog, foldl_processLead_dialLog]
  · rw [foldl_processLead_dialLog]

/-- Witness for the C3 amended theorem at the concrete reachable state
`sys1`. -/
theorem c3_tick_selects_pending_slice_witness :
    (tick sys1 0 1000 locMon placeAll).dialLog =
      sys1.dialLog ++
        ((jsSliceTo (getCampaignLeadsByStatus sys1.store 0 .pending)
            (((settingsA 1).maxConcurrentCalls : Int) -
              (getActiveCampaignCalls sys1.store 0).length)).filter
          (wouldDial (settingsA 1) 1000)).map (fun l => l.id) :=
  c3_tick_selects_pending_slice sys1 0 1000 locMon placeAll
    ⟨0, "t1", "a1", "camp", .running, 3, 0, 0, settingsA 1, none, some 0, none⟩
    (by decide) (by decide) (by decide)

/-- C4 counterexample: a first placement attempt that throws leaves the lead
terminally `failed` with `callAttempts = 1`, although `retryAttempts = 3`
leaves plenty of retry budget — where the claim requires `failed` only when
the incremented attempt count reaches `retryAttempts`. -/
theorem c4_counterexample :
    (getLead c4fin.store 0).map (fun l => (l.status, l.callAttempts, l.notes)) =
      some (.failed, 1, some "boom") ∧
    ¬ dC4.settings.retryAttempts ≤ 1 := by
  refine ⟨?_, ?_⟩ <;> decide

/-- C4 amended: whenever the adapter placement call for a dialed lead throws,
the engine increments that lead's `callAttempts`, records the thrown message
in `notes`, and sets the lead's status to `failed` unconditionally — even
when the incremented count is still below `retryAttempts` — so a transient
placement failure never leaves the lead retry-eligible. -/
theorem c4_placement_failure_always_fails (sys : Sys) (camp : CampaignRec)
    (lead : LeadRec) (stg : CampaignSettings) (now : Int)
    (place : Nat → Option String) (msg : String) (l0 : LeadRec)
    (hatt : lead.callAttempts < stg.retryAttempts)
    (hdelay : lead.lastCallAt = none ∨
      ∃ t, lead.lastCallAt = some t ∧ (stg.retryDelay : Int) * 60 * 1000 ≤ now - t)
    (hplace : place lead.id = some msg)
    (hl : getLead sys.store lead.id = some l0) :
    getLead (processLead sys camp lead stg now place).store lead.id =
      some { l0 with status := .failed, callAttempts := lead.callAttempts + 1,
                     notes := some msg } := by
  obtain ⟨-, hid0⟩ := getLead_mem hl
  have h1 : ¬ stg.retryAttempts ≤ lead.callAttempts := Nat.not_le.mpr hatt
  have h2 : (match lead.lastCallAt with
             | some t => decide (now - t < (stg.retryDelay : Int) * 60 * 1000)
             | none => false) = false := by
    rcases hdelay with h | ⟨t, ht, hge⟩
    · rw [h]
    · rw [ht]
      simp [not_lt.mpr hge]
  unfold processLead
  rw [if_neg h1, h2]
  simp only [Bool.false_eq_true, if_false, hplace]
  rw [getLead_updateCampaignLead_self
    (f := fun l => { l with status := .failed, callAttempts := lead.callAttempts + 1,
                            notes := some msg })
    (fun l => rfl) hl]

/-- Witness for the C4 amended theorem: the concrete one-lead campaign of
`dC4` whose first dial throws `boom`. -/
theorem c4_placement_failure_always_fails_witness :
    getLead (processLead (step init (.create dC4 0))
        ⟨0, "t1", "a1", "camp", .running, 1, 0, 0, ⟨1, 3, 1, whAll, "twilio"⟩, none, some 0, none⟩
        ⟨0, 0, "p1", .pending, 0, none, none, none, none, none⟩
        ⟨1, 3, 1, whAll, "twilio"⟩ 1000 placeBoom).store 0 =
      some ⟨0, 0, "p1", .failed, 1, none, some "boom", none, none, none⟩ :=
  c4_placement_failure_always_fails (step init (.create dC4 0))
    ⟨0, "t1", "a1", "camp", .running, 1, 0, 0, ⟨1, 3, 1, whAll, "twilio"⟩, none, some 0, none⟩
    ⟨0, 0, "p1", .pending, 0, none, none, none, none, none⟩
    ⟨1, 3, 1, whAll, "twilio"⟩ 1000 placeBoom "boom"
    ⟨0, 0, "p1", .pending, 0, none, none, none, none, none⟩
    (by decide) (Or.inl rfl) rfl (by decide)

/-! Section: Scenario A -/

/-- C2 counterexample: with `retryAttempts = 0` the first in-hours tick of
the three-lead campaign invokes the adapter zero times and terminally fails
lead 0 (the first lead in creation order) without any call, so the leads are
not dispatched one at a time and no completed webhooks can ever arrive. -/
theorem c2_counterexample :
    c2ce.dialLog = [] ∧
    (getLead c2ce.store 0).map (fun l => (l.status, l.callAttempts)) =
      some (.failed, 0) ∧
    c2ce.store.calls = [] := by
  refine ⟨?_, ?_, ?_⟩ <;> decide

/-- C2 amended: with `retryAttempts = 1` instead of 0, ticks do dispatch the
three leads one at a time in creation order ([0, 1, 2]), but the completed
webhook for each dialed call is a no-op — `voipOrchestrator.makeCall` nests
the lead reference under `metadata.settings` while `handleCallWebhook`
reads the top-level `metadata.leadId` — so each dialed lead stays pending
and is terminally failed by the following tick on retry exhaustion; the
campaign ends completed with `successfulCalls = 0`, not 3 (3 completed, 3
failed leads per `getCampaignProgress`). -/
theorem c2_scenario_a_amended :
    (run init (c2Events.take 2)).dialLog = [0] ∧
    (getLead (run init (c2Events.take 4)).store 0).map
      (fun l => (l.status, l.callAttempts)) = some (.pending, 1) ∧
    (getLead (run init (c2Events.take 5)).store 0).map (fun l => l.status) =
      some .failed ∧
    (run init (c2Events.take 5)).dialLog = [0] ∧
    (run init (c2Events.take 6)).dialLog = [0, 1] ∧
    (run init (c2Events.take 10)).dialLog = [0, 1, 2] ∧
    c2fin.dialLog = [0, 1, 2] ∧
    (getCampaign c2fin.store 0).map (fun c => c.status) = some .completed ∧
    (getCampaignProgress c2fin.store 0).map
      (fun p => (p.successfulCalls, p.completedLeads, p.failedCalls)) = some (0, 3, 3) := by
  refine ⟨?_, ?_, ?_, ?_, ?_, ?_, ?_, ?_, ?_⟩ <;> decide

/-! Section: Working-hours gating of ticks -/

/-- C8: a tick that fires when the working-hours evaluator returns false for
the campaign's settings leaves the whole system state unchanged — zero
placement calls are made and no lead, call or campaign state is modified. -/
theorem c8_out_of_hours_tick_noop (sys : Sys) (cid : Nat) (now : Int)
    (loc : LocalTime) (place : Nat → Option String) (c : CampaignRec)
    (hc : getCampaign sys.store cid = some c)
    (hwh : isWithinWorkingHours loc c.settings.workingHours = false) :
    tick sys cid now loc place = sys :=
  tick_out_of_hours sys cid now loc place c hc hwh

/-- Witness for C8: a Sunday tick against the weekday-window campaign of
`c10a` is the identity. -/
theorem c8_out_of_hours_tick_noop_witness :
    tick c10a 0 1000 locSun placeAll = c10a :=
  c8_out_of_hours_tick_noop c10a 0 1000 locSun placeAll
    ⟨0, "t1", "a1", "camp", .running, 0, 0, 0, ⟨1, 1, 1, whBiz, "twilio"⟩, none, some 0, none⟩
    (by decide) (by decide)

/-- C10 counterexample: the empty-lead campaign auto-starts at creation, but
its first tick fires on a Sunday outside the 09:00-17:00 weekday window and
leaves the campaign running, not completed — the claim holds only for a tick
inside the working-hours window. -/
theorem c10_counterexample :
    (getCampaign c10a.store 0).map (fun c => c.status) = some .running ∧
    (getCampaign c10b.store 0).map (fun c => c.status) = some .running ∧
    (CampaignStatus.running ≠ CampaignStatus.completed) := by
  refine ⟨?_, ?_, ?_⟩ <;> decide

/-! Section: Shape lemmas for the invariant proof -/

theorem processLead_campaigns (sys : Sys) (camp : CampaignRec) (lead : LeadRec)
    (stg : CampaignSettings) (now : Int) (place : Nat → Option String) :
    (processLead sys camp lead stg now place).store.campaigns = sys.store.campaigns := by
  unfold processLead
  split
  · rfl
  · split
    · rfl
    · cases place lead.id <;> rfl

theorem processLead_nextCampaignId (sys : Sys) (camp : CampaignRec) (lead : LeadRec)
    (stg : CampaignSettings) (now : Int) (place : Nat → Option String) :
    (processLead sys camp lead stg now place).store.nextCampaignId =
      sys.store.nextCampaignId := by
  unfold processLead
  split
  · rfl
  · split
    · rfl
    · cases place lead.id <;> rfl

theorem processLead_engine (sys : Sys) (camp : CampaignRec) (lead : LeadRec)
    (stg : CampaignSettings) (now : Int) (place : Nat → Option String) :
    (processLead sys camp lead stg now place).engine = sys.engine := by
  unfold processLead
  split
  · rfl
  · split
    · rfl
    · cases place lead.id <;> rfl

theorem processLead_calls (sys : Sys) (camp : CampaignRec) (lead : LeadRec)
    (stg : CampaignSettings) (now : Int) (place : Nat → Option String) :
    (processLead sys camp lead stg now place).store.calls = sys.store.calls ∨
    (processLead sys camp lead stg now place).store.calls =
      sys.store.calls ++ [dialCallRec sys.store camp lead] := by
  unfold processLead
  split
  · exact Or.inl rfl
  · split
    · exact Or.inl rfl
    · cases place lead.id
      · exact Or.inr rfl
      · exact Or.inl rfl

theorem leads_camp_preserved_update (st : Store) (lid : Nat) (f : LeadRec → LeadRec)
    (hcamp : ∀ l, (f l).campaignId = l.campaignId) :
    ∀ l2 ∈ (updateCampaignLead st lid f).leads,
      ∃ l1 ∈ st.leads, l2.campaignId = l1.campaignId := by
  intro l2 h2
  unfold updateCampaignLead at h2
  simp only [List.mem_map] at h2
  obtain ⟨l1, h1, hl⟩ := h2
  by_cases h : l1.id = lid
  · exact ⟨l1, h1, by rw [← hl]; simp [h, hcamp]⟩
  · exact ⟨l1, h1, by rw [← hl]; simp [h]⟩

theorem processLead_leadCamps (sys : Sys) (camp : CampaignRec) (lead : LeadRec)
    (stg : CampaignSettings) (now : Int) (place : Nat → Option String) :
    ∀ l2 ∈ (processLead sys camp lead stg now place).store.leads,
      ∃ l1 ∈ sys.store.leads, l2.campaignId = l1.campaignId := by
  unfold processLead
  split
  · exact leads_camp_preserved_update _ _ _ (fun l => rfl)
  · split
    · exact fun l2 h2 => ⟨l2, h2, rfl⟩
    · cases place lead.id
      · exact leads_camp_preserved_update _ _ _ (fun l => rfl)
      · exact leads_camp_preserved_update _ _ _ (fun l => rfl)

theorem foldl_processLead_campaigns (camp : CampaignRec) (stg : CampaignSettings)
    (now : Int) (place : Nat → Option String) (L : List LeadRec) (sys : Sys) :
    ((L.foldl (fun s l => processLead s camp l stg now place) sys)).store.campaigns =
      sys.store.campaigns := by
  induction L generalizing sys with
  | nil => rfl
  | cons a L ih => rw [List.foldl_cons, ih, processLead_campaigns]

theorem foldl_processLead_nextCampaignId (camp : CampaignRec) (stg : CampaignSettings)
    (now : Int) (place : Nat → Option String) (L : List LeadRec) (sys : Sys) :
    ((L.foldl (fun s l => processLead s camp l stg now place) sys)).store.nextCampaignId =
      sys.store.nextCampaignId := by
  induction L generalizing sys with
  | nil => rfl
  | cons a L ih => rw [List.foldl_cons, ih, processLead_nextCampaignId]

theorem foldl_processLead_engine (camp : CampaignRec) (stg : CampaignSettings)
    (now : Int) (place : Nat → Option String) (L : List LeadRec) (sys : Sys) :
    ((L.foldl (fun s l => processLead s camp l stg now place) sys)).engine = sys.engine := by
  induction L generalizing sys with
  | nil => rfl
  | cons a L ih => rw [List.foldl_cons, ih, processLead_engine]

theorem foldl_processLead_calls (camp : CampaignRec) (stg : CampaignSettings)
    (now : Int) (place : Nat → Option String) (L : List LeadRec) (sys : Sys) :
    ∃ added : List CallRec,
      ((L.foldl (fun s l => processLead s camp l stg now place) sys)).store.calls =
        sys.store.calls ++ added ∧
      added.length ≤ L.length ∧
      ∀ cc ∈ added, cc.metadata.settingsCampaignId = some camp.id ∧
        cc.metadata.leadId = none := by
  induction L generalizing sys with
  | nil => exact ⟨[], by simp, by simp, by simp⟩
  | cons a L ih =>
    rw [List.foldl_cons]
    obtain ⟨added, hcalls, hlen, hcamp⟩ := ih (processLead sys camp a stg now place)
    rcases processLead_calls sys camp a stg now place with h | h
    · exact ⟨added, by rw [hcalls, h], Nat.le_succ_of_le hlen, hcamp⟩
    · refine ⟨dialCallRec sys.store camp a :: added, ?_, by simpa using hlen, ?_⟩
      · rw [hcalls, h]
        simp
      · intro cc hcc
        rcases List.mem_cons.mp hcc with h1 | h1
        · rw [h1]
          exact ⟨rfl, rfl⟩
        · exact hcamp cc h1

theorem foldl_processLead_leadCamps (camp : CampaignRec) (stg : CampaignSettings)
    (now : Int) (place : Nat → Option String) (L : List LeadRec) (sys : Sys) :
    ∀ l2 ∈ ((L.foldl (fun s l => processLead s camp l stg now place) sys)).store.leads,
      ∃ l1 ∈ sys.store.leads, l2.campaignId = l1.campaignId := by
  induction L generalizing sys with
  | nil => exact fun l2 h2 => ⟨l2, h2, rfl⟩
  | cons a L ih =>
    rw [List.foldl_cons]
    intro l2 h2
    obtain ⟨l1, h1, he⟩ := ih (processLead sys camp a stg now place) l2 h2
    obtain ⟨l0, h0, he0⟩ := processLead_leadCamps sys camp a stg now place l1 h1
    exact ⟨l0, h0, he.trans he0⟩

theorem activeCallsOf_append (calls1 calls2 : List CallRec) (cid : Nat) :
    (activeCallsOf (calls1 ++ calls2) cid).length =
      (activeCallsOf calls1 cid).length + (activeCallsOf calls2 cid).length := by
  simp [activeCallsOf, List.filter_append]

theorem activeCallsOf_length_le (calls : List CallRec) (cid : Nat) :
    (activeCallsOf calls cid).length ≤ calls.length :=
  List.length_filter_le _ _

theorem activeCallsOf_other (calls : List CallRec) (cid cid2 : Nat)
    (h : ∀ c ∈ calls, c.metadata.settingsCampaignId = some cid2) (hne : cid ≠ cid2) :
    activeCallsOf calls cid = [] := by
  unfold activeCallsOf
  rw [List.filter_eq_nil_iff]
  intro c hc
  simp [h c hc, hne, Ne.symm hne]

theorem getCampaign_congr {st1 st2 : Store} (h : st1.campaigns = st2.campaigns)
    (cid : Nat) : getCampaign st1 cid = getCampaign st2 cid := by
  unfold getCampaign
  rw [h]

theorem activeCallCount_congr {st1 st2 : Store} (h : st1.calls = st2.calls)
    (cid : Nat) : activeCallCount st1 cid = activeCallCount st2 cid := by
  unfold activeCallCount getActiveCampaignCalls
  rw [h]

/-! Section: Invariant preservation -/

theorem inv_init : Inv init := by
  constructor
  · intro c hc
    simp [init] at hc
  · intro c hc k hk
    simp [init] at hc
  · intro c hc
    simp [init] at hc
  · intro l hl
    simp [init] at hl
  · intro r hr
    simp [init] at hr
  · intro cid c hc
    simp [init, getCampaign] at hc

theorem inv_of_shape {sys sys' : Sys} (g : CampaignRec → CampaignRec)
    (hg : ∀ c, (g c).id = c.id ∧ (g c).settings = c.settings)
    (hcamps : sys'.store.campaigns = sys.store.campaigns.map g)
    (hcalls : sys'.store.calls = sys.store.calls)
    (hleads : ∀ l2 ∈ sys'.store.leads, ∃ l1 ∈ sys.store.leads, l2.campaignId = l1.campaignId)
    (hnext : sys'.store.nextCampaignId = sys.store.nextCampaignId)
    (hrun : ∀ r ∈ sys'.engine.running, r ∈ sys.engine.running ∨ r < sys.store.nextCampaignId)
    (h : Inv sys) : Inv sys' := by
  constructor
  · intro c hc
    rw [hcamps] at hc
    rw [hnext]
    obtain ⟨c0, h0, rfl⟩ := List.mem_map.mp hc
    rw [(hg c0).1]
    exact h.campIds c0 h0
  · intro c hc k hk
    rw [hcalls] at hc
    rw [hnext]
    exact h.callCamps c hc k hk
  · intro c hc
    rw [hcalls] at hc
    exact h.callsNoLead c hc
  · intro l hl
    rw [hnext]
    obtain ⟨l1, h1, he⟩ := hleads l hl
    rw [he]
    exact h.leadCamps l1 h1
  · intro r hr
    rw [hnext]
    rcases hrun r hr with h1 | h1
    · exact h.runIds r h1
    · exact h1
  · intro cid c hc
    have hgc : getCampaign sys'.store cid = (getCampaign sys.store cid).map g := by
      unfold getCampaign
      rw [hcamps]
      exact find?_map_pred g _ (fun c0 => by simp [(hg c0).1]) _
    rw [hgc] at hc
    cases h0 : getCampaign sys.store cid with
    | none =>
      rw [h0] at hc
      simp at hc
    | some c0 =>
      rw [h0] at hc
      simp at hc
      rw [activeCallCount_congr hcalls, ← hc, (hg c0).2]
      exact h.bound cid c0 h0

theorem handleCallWebhook_campaigns (st : Store) (callId : Nat) (status : String)
    (data : WebhookData) :
    (handleCallWebhook st callId status data).campaigns = st.campaigns := by
  cases hc : getCall st callId with
  | none => rw [handleCallWebhook_unknown st callId status data hc]
  | some call =>
    cases hl : call.metadata.leadId with
    | none => rw [handleCallWebhook_noLead st callId status data call hc hl]
    | some lid =>
      rw [handleCallWebhook_resolved st callId status data call lid hc hl]
      split_ifs <;> rfl

theorem handleCallWebhook_nextCampaignId (st : Store) (callId : Nat) (status : String)
    (data : WebhookData) :
    (handleCallWebhook st callId status data).nextCampaignId = st.nextCampaignId := by
  cases hc : getCall st callId with
  | none => rw [handleCallWebhook_unknown st callId status data hc]
  | some call =>
    cases hl : call.metadata.leadId with
    | none => rw [handleCallWebhook_noLead st callId status data call hc hl]
    | some lid =>
      rw [handleCallWebhook_resolved st callId status data call lid hc hl]
      split_ifs <;> rfl

theorem handleCallWebhook_leadCamps (st : Store) (callId : Nat) (status : String)
    (data : WebhookData) :
    ∀ l2 ∈ (handleCallWebhook st callId status data).leads,
      ∃ l1 ∈ st.leads, l2.campaignId = l1.campaignId := by
  cases hc : getCall st callId with
  | none =>
    rw [handleCallWebhook_unknown st callId status data hc]
    exact fun l2 h2 => ⟨l2, h2, rfl⟩
  | some call =>
    cases hl : call.metadata.leadId with
    | none =>
      rw [handleCallWebhook_noLead st callId status data call hc hl]
      exact fun l2 h2 => ⟨l2, h2, rfl⟩
    | some lid =>
      rw [handleCallWebhook_resolved st callId status data call lid hc hl]
      split_ifs
      · exact leads_camp_preserved_update _ _ _ (fun l => rfl)
      · exact leads_camp_preserved_update _ _ _ (fun l => rfl)
      · exact leads_camp_preserved_update _ _ _ (fun l => rfl)
      · exact leads_camp_preserved_update _ _ _ (fun l => rfl)
      · exact fun l2 h2 => ⟨l2, h2, rfl⟩

theorem inv_webhook (sys : Sys) (callId : Nat) (status : String) (data : WebhookData)
    (h : Inv sys) :
    Inv { sys with store := handleCallWebhook sys.store callId status data } := by
  apply inv_of_shape (g := id) (fun c => ⟨rfl, rfl⟩) ?_ ?_ ?_ ?_ ?_ h
  · rw [List.map_id]
    exact handleCallWebhook_campaigns sys.store callId status data
  · exact handleCallWebhook_calls sys.store callId status data
  · exact handleCallWebhook_leadCamps sys.store callId status data
  · exact handleCallWebhook_nextCampaignId sys.store callId status data
  · exact fun r hr => Or.inl hr

theorem inv_endCall (sys : Sys) (callId : Nat) (now : Int) (h : Inv sys) :
    Inv { sys with store := endCallRoute sys.store callId now } := by
  constructor
  · intro c hc
    exact h.campIds c hc
  · intro c hc k hk
    simp only [endCallRoute, updateCall, List.mem_map] at hc
    obtain ⟨c0, h0, he⟩ := hc
    by_cases hid : c0.id = callId
    · rw [← he] at hk
      simp [hid] at hk
      exact h.callCamps c0 h0 k hk
    · rw [← he] at hk
      simp [hid] at hk
      exact h.callCamps c0 h0 k hk
  · intro c hc
    simp only [endCallRoute, updateCall, List.mem_map] at hc
    obtain ⟨c0, h0, he⟩ := hc
    by_cases hid : c0.id = callId
    · rw [← he]
      simpa [hid] using h.callsNoLead c0 h0
    · rw [← he]
      simpa [hid] using h.callsNoLead c0 h0
  · intro l hl
    exact h.leadCamps l hl
  · intro r hr
    exact h.runIds r hr
  · intro cid c hc
    have hb := h.bound cid c hc
    have hcount : activeCallCount { sys.store with
        calls := sys.store.calls.map (fun c0 =>
          if c0.id = callId then { c0 with status := .completed, endTime := some now }
          else c0) } cid ≤ activeCallCount sys.store cid := by
      unfold activeCallCount getActiveCampaignCalls activeCallsOf
      apply length_filter_map_le
      intro c0 hc0
      by_cases hid : c0.id = callId
      · simp [hid, isActiveCallStatus] at hc0
      · simpa [hid] using hc0
    exact le_trans hcount hb

theorem inv_update_log_run (sys : Sys) (cid : Nat) (f : CampaignRec → CampaignRec)
    (hf : ∀ c, (f c).id = c.id ∧ (f c).settings = c.settings)
    (msg : String) (rs : List Nat) (d : List Nat)
    (hrun : ∀ r ∈ rs, r ∈ sys.engine.running ∨ r < sys.store.nextCampaignId)
    (h : Inv sys) :
    Inv { store := logActivity (updateCampaign sys.store cid f) msg
          engine := { running := rs }, dialLog := d } := by
  apply inv_of_shape (g := fun c => if c.id = cid then f c else c) ?_ ?_ ?_ ?_ ?_ ?_ h
  · intro c
    by_cases hc : c.id = cid <;> simp [hc, hf c]
  · rfl
  · rfl
  · exact fun l2 h2 => ⟨l2, h2, rfl⟩
  · rfl
  · exact hrun

theorem inv_startCampaign (sys : Sys) (cid : Nat) (now : Int) (h : Inv sys) :
    Inv (match startCampaign sys cid now with
         | .ok s => s
         | .error _ => sys) := by
  by_cases hr : decide (cid ∈ sys.engine.running) = true
  · simp only [startCampaign, hr, if_true]
    exact h
  · have hr' : decide (cid ∈ sys.engine.running) = false := by
      simpa using hr
    cases hc : getCampaign sys.store cid with
    | none =>
      simp only [startCampaign, hr', hc, Bool.false_eq_true, if_false]
      exact h
    | some c =>
      by_cases hs : (decide (c.status ≠ CampaignStatus.draft) &&
          decide (c.status ≠ CampaignStatus.scheduled)) = true
      · simp only [startCampaign, hr', hc, Bool.false_eq_true, if_false, hs, if_true]
        exact h
      · have hs' : (decide (c.status ≠ CampaignStatus.draft) &&
            decide (c.status ≠ CampaignStatus.scheduled)) = false := by
          simpa using hs
        have hinv := inv_update_log_run sys cid
          (fun c0 => { c0 with status := CampaignStatus.running, startedAt := some now })
          (fun c0 => ⟨rfl, rfl⟩) ("campaign_started:" ++ c.name)
          (sys.engine.running ++ [cid]) sys.dialLog ?_ h
        · simp only [startCampaign, hr', hc, hs', Bool.false_eq_true, if_false]
          exact hinv
        · intro r hrm
          rcases List.mem_append.mp hrm with h1 | h1
          · exact Or.inl h1
          · have hrc : r = cid := by simpa using h1
            rw [hrc]
            obtain ⟨hmem, hcid⟩ := getCampaign_mem hc
            exact Or.inr (hcid ▸ h.campIds c hmem)

theorem inv_pauseCampaign (sys : Sys) (cid : Nat) (h : Inv sys) :
    Inv (match pauseCampaign sys cid with
         | .ok s => s
         | .error _ => sys) := by
  cases hc : getCampaign sys.store cid with
  | none =>
    simp only [pauseCampaign, hc]
    exact h
  | some c =>
    have hinv := inv_update_log_run sys cid
      (fun c0 => { c0 with status := CampaignStatus.paused })
      (fun c0 => ⟨rfl, rfl⟩) ("campaign_paused:" ++ c.name)
      (sys.engine.running.filter (fun r => decide (r ≠ cid))) sys.dialLog
      (fun r hrm => Or.inl (List.mem_of_mem_filter hrm)) h
    simp only [pauseCampaign, hc]
    exact hinv

theorem inv_completeCampaign (sys : Sys) (cid : Nat) (now : Int) (h : Inv sys) :
    Inv (completeCampaign sys cid now) := by
  cases hc : getCampaign sys.store cid with
  | none =>
    simp only [completeCampaign, hc]
    exact h
  | some c =>
    have hinv := inv_update_log_run sys cid
      (fun c0 => { c0 with status := CampaignStatus.completed, completedAt := some now })
      (fun c0 => ⟨rfl, rfl⟩) ("campaign_completed:" ++ c.name)
      (sys.engine.running.filter (fun r => decide (r ≠ cid))) sys.dialLog
      (fun r hrm => Or.inl (List.mem_of_mem_filter hrm)) h
    simp only [completeCampaign, hc]
    exact hinv

theorem foldl_storeCreateLead_shape (lds : List LeadData) (cid : Nat) (st : Store) :
    ((lds.foldl (fun s ld => storeCreateLead s cid ld) st)).campaigns = st.campaigns ∧
    ((lds.foldl (fun s ld => storeCreateLead s cid ld) st)).calls = st.calls ∧
    ((lds.foldl (fun s ld => storeCreateLead s cid ld) st)).nextCampaignId =
      st.nextCampaignId ∧
    ∀ l ∈ ((lds.foldl (fun s ld => storeCreateLead s cid ld) st)).leads,
      l ∈ st.leads ∨ l.campaignId = cid := by
  induction lds generalizing st with
  | nil => exact ⟨rfl, rfl, rfl, fun l hl => Or.inl hl⟩
  | cons a lds ih =>
    rw [List.foldl_cons]
    obtain ⟨h1, h2, h3, h4⟩ := ih (storeCreateLead st cid a)
    refine ⟨h1, h2, h3, ?_⟩
    intro l hl
    rcases h4 l hl with hm | hm
    · rcases List.mem_append.mp hm with hmm | hmm
      · exact Or.inl hmm
      · exact Or.inr (by rw [List.mem_singleton.mp hmm])
    · exact Or.inr hm

theorem activeCallsOf_fresh (calls : List CallRec) (n : Nat)
    (h : ∀ c ∈ calls, ∀ k, c.metadata.settingsCampaignId = some k → k < n) :
    activeCallsOf calls n = [] := by
  unfold activeCallsOf
  rw [List.filter_eq_nil_iff]
  intro c hc hp
  rw [Bool.and_eq_true] at hp
  have hcamp : c.metadata.settingsCampaignId = some n := by
    have := hp.1
    simpa using this
  exact absurd (h c hc n hcamp) (lt_irrefl n)

theorem inv_createCampaign (sys : Sys) (d : CreateData) (now : Int) (h : Inv sys) :
    Inv (createCampaign sys d now) := by
  have hmid : Inv { sys with store :=
      (d.leads.foldl (fun s ld => storeCreateLead s (storeCreateCampaign sys.store d).2.id ld)
        (storeCreateCampaign sys.store d).1) } := by
    obtain ⟨hc1, hc2, hc3, hc4⟩ := foldl_storeCreateLead_shape d.leads
      (storeCreateCampaign sys.store d).2.id (storeCreateCampaign sys.store d).1
    have hcamps : (d.leads.foldl
        (fun s ld => storeCreateLead s (storeCreateCampaign sys.store d).2.id ld)
        (storeCreateCampaign sys.store d).1).campaigns =
        sys.store.campaigns ++ [newCampaignRec sys.store d] := by
      rw [hc1]
      simp only [storeCreateCampaign]
    have hcalls : (d.leads.foldl
        (fun s ld => storeCreateLead s (storeCreateCampaign sys.store d).2.id ld)
        (storeCreateCampaign sys.store d).1).calls = sys.store.calls := by
      rw [hc2]
      simp only [storeCreateCampaign]
    have hnext : (d.leads.foldl
        (fun s ld => storeCreateLead s (storeCreateCampaign sys.store d).2.id ld)
        (storeCreateCampaign sys.store d).1).nextCampaignId =
        sys.store.nextCampaignId + 1 := by
      rw [hc3]
      simp only [storeCreateCampaign]
    constructor
    · intro c hcm
      rw [hcamps] at hcm
      rw [hnext]
      rcases List.mem_append.mp hcm with h1 | h1
      · exact Nat.lt_succ_of_lt (h.campIds c h1)
      · have he : c = newCampaignRec sys.store d := by simpa using h1
        rw [he]
        exact Nat.lt_succ_self _
    · intro c hcm k hk
      rw [hcalls] at hcm
      rw [hnext]
      exact Nat.lt_succ_of_lt (h.callCamps c hcm k hk)
    · intro c hcm
      rw [hcalls] at hcm
      exact h.callsNoLead c hcm
    · intro l hl
      rw [hnext]
      rcases hc4 l hl with h1 | h1
      · have h1m : l ∈ sys.store.leads := by
          have hsame : (storeCreateCampaign sys.store d).1.leads = sys.store.leads := by
            simp only [storeCreateCampaign]
          rw [hsame] at h1
          exact h1
        exact Nat.lt_succ_of_lt (h.leadCamps l h1m)
      · have hsame : (storeCreateCampaign sys.store d).2.id = sys.store.nextCampaignId := by
          simp only [storeCreateCampaign, newCampaignRec]
        rw [h1, hsame]
        exact Nat.lt_succ_self _
    · intro r hr
      rw [hnext]
      exact Nat.lt_succ_of_lt (h.runIds r hr)
    · intro cid c hcm
      have hexp : getCampaign { sys with store :=
          (d.leads.foldl (fun s ld => storeCreateLead s (storeCreateCampaign sys.store d).2.id ld)
            (storeCreateCampaign sys.store d).1) }.store cid =
          match getCampaign sys.store cid with
          | some c0 => some c0
          | none => List.find? (fun c0 => decide (c0.id = cid)) [newCampaignRec sys.store d] := by
        show List.find? _ _ = _
        rw [hcamps, find?_append_cases]
        unfold getCampaign
        cases List.find? (fun c0 => decide (c0.id = cid)) sys.store.campaigns <;> rfl
      rw [hexp] at hcm
      have hcount : activeCallCount { sys with store :=
          (d.leads.foldl (fun s ld => storeCreateLead s (storeCreateCampaign sys.store d).2.id ld)
            (storeCreateCampaign sys.store d).1) }.store cid = activeCallCount sys.store cid :=
        activeCallCount_congr hcalls cid
      rw [hcount]
      cases h0 : getCampaign sys.store cid with
      | some c0 =>
        rw [h0] at hcm
        have hcc : c0 = c := by simpa using hcm
        rw [← hcc]
        exact h.bound cid c0 h0
      | none =>
        rw [h0] at hcm
        have hmemc : c = newCampaignRec sys.store d := by
          have := List.mem_of_find?_eq_some hcm
          simpa using this
        have hid : c.id = cid := by
          have := List.find?_some hcm
          simpa using this
        have hcid : cid = sys.store.nextCampaignId := by
          rw [← hid, hmemc]
          rfl
        have hzero : activeCallCount sys.store cid = 0 := by
          rw [hcid]
          unfold activeCallCount getActiveCampaignCalls
          rw [activeCallsOf_fresh sys.store.calls sys.store.nextCampaignId h.callCamps]
          rfl
        rw [hzero]
        exact Nat.zero_le _
  simp only [createCampaign]
  split
  · exact inv_startCampaign _ _ _ hmid
  · exact hmid

theorem inv_fold_processLead (sys : Sys) (campaign : CampaignRec) (cid : Nat)
    (now : Int) (place : Nat → Option String) (L : List LeadRec)
    (hc : getCampaign sys.store cid = some campaign)
    (hlen : L.length + activeCallCount sys.store cid ≤
      campaign.settings.maxConcurrentCalls)
    (h : Inv sys) :
    Inv (L.foldl (fun s l => processLead s campaign l campaign.settings now place) sys) := by
  obtain ⟨hmem, hcid⟩ := getCampaign_mem hc
  obtain ⟨added, hcalls, hlenA, hcampA⟩ :=
    foldl_processLead_calls campaign campaign.settings now place L sys
  constructor
  · intro c hcm
    rw [foldl_processLead_campaigns] at hcm
    rw [foldl_processLead_nextCampaignId]
    exact h.campIds c hcm
  · intro c hcm k hk
    rw [foldl_processLead_nextCampaignId]
    rw [hcalls] at hcm
    rcases List.mem_append.mp hcm with h1 | h1
    · exact h.callCamps c h1 k hk
    · have hca := (hcampA c h1).1
      rw [hca] at hk
      have hkk : k = campaign.id := by
        have := hk.symm
        simpa using this
      rw [hkk]
      exact h.campIds campaign hmem
  · intro c hcm
    rw [hcalls] at hcm
    rcases List.mem_append.mp hcm with h1 | h1
    · exact h.callsNoLead c h1
    · exact (hcampA c h1).2
  · intro l hl
    rw [foldl_processLead_nextCampaignId]
    obtain ⟨l1, h1, he⟩ :=
      foldl_processLead_leadCamps campaign campaign.settings now place L sys l hl
    rw [he]
    exact h.leadCamps l1 h1
  · intro r hr
    rw [foldl_processLead_nextCampaignId]
    rw [foldl_processLead_engine] at hr
    exact h.runIds r hr
  · intro cid2 c2 hc2
    have hgc : getCampaign
        (L.foldl (fun s l => processLead s campaign l campaign.settings now place) sys).store
        cid2 = getCampaign sys.store cid2 :=
      getCampaign_congr (foldl_processLead_campaigns campaign campaign.settings now place L sys) cid2
    rw [hgc] at hc2
    have hb := h.bound cid2 c2 hc2
    have hcount : activeCallCount
        (L.foldl (fun s l => processLead s campaign l campaign.settings now place) sys).store
        cid2 = activeCallCount sys.store cid2 + (activeCallsOf added cid2).length := by
      unfold activeCallCount getActiveCampaignCalls
      rw [hcalls]
      exact activeCallsOf_append _ _ _
    by_cases heq : cid2 = campaign.id
    · have hcidEq : cid2 = cid := by rw [heq, hcid]
      rw [hcidEq] at hc2
      rw [hc] at hc2
      have hcc : campaign = c2 := by simpa using hc2
      rw [hcount, hcidEq]
      calc activeCallCount sys.store cid + (activeCallsOf added cid).length
          ≤ activeCallCount sys.store cid + added.length :=
            Nat.add_le_add_left (activeCallsOf_length_le added cid) _
        _ ≤ activeCallCount sys.store cid + L.length := Nat.add_le_add_left hlenA _
        _ ≤ campaign.settings.maxConcurrentCalls := by omega
        _ = c2.settings.maxConcurrentCalls := by rw [hcc]
    · rw [hcount, activeCallsOf_other added cid2 campaign.id
        (fun c hcc => (hcampA c hcc).1) heq]
      simpa using hb

theorem inv_tick (sys : Sys) (cid : Nat) (now : Int) (loc : LocalTime)
    (place : Nat → Option String) (h : Inv sys) :
    Inv (tick sys cid now loc place) := by
  cases hc : getCampaign sys.store cid with
  | none =>
    simp only [tick, hc]
    exact h
  | some campaign =>
    by_cases hr : cid ∈ sys.engine.running
    · by_cases hw : isWithinWorkingHours loc campaign.settings.workingHours = true
      · have hb := h.bound cid campaign hc
        have h1 : (!decide (cid ∈ sys.engine.running)) = false := by simp [hr]
        have h2 : (!isWithinWorkingHours loc campaign.settings.workingHours) = false := by
          simp [hw]
        have hlen : (jsSliceTo (getCampaignLeadsByStatus sys.store cid .pending)
            ((campaign.settings.maxConcurrentCalls : Int) -
              (getActiveCampaignCalls sys.store cid).length)).length +
            activeCallCount sys.store cid ≤ campaign.settings.maxConcurrentCalls := by
          have h0 : (0:Int) ≤ (campaign.settings.maxConcurrentCalls : Int) -
              (getActiveCampaignCalls sys.store cid).length := by
            rw [sub_nonneg]
            exact_mod_cast hb
          rw [jsSliceTo, if_neg (not_lt.mpr h0), Int.toNat_sub]
          have h3 : (List.take
              (campaign.settings.maxConcurrentCalls -
                (getActiveCampaignCalls sys.store cid).length)
              (getCampaignLeadsByStatus sys.store cid .pending)).length ≤
              campaign.settings.maxConcurrentCalls -
                (getActiveCampaignCalls sys.store cid).length := by
            rw [List.length_take]
            exact Nat.min_le_left _ _
          have hb2 : activeCallCount sys.store cid ≤
              campaign.settings.maxConcurrentCalls := hb
          unfold activeCallCount at hb2 ⊢
          omega
        have hmid := inv_fold_processLead sys campaign cid now place
          (jsSliceTo (getCampaignLeadsByStatus sys.store cid .pending)
            ((campaign.settings.maxConcurrentCalls : Int) -
              (getActiveCampaignCalls sys.store cid).length)) hc hlen h
        simp only [tick, hc, h1, h2, Bool.false_eq_true, if_false]
        split
        · exact inv_completeCampaign _ cid now hmid
        · exact inv_of_shape
            (g := fun c0 => if c0.id = cid then
              { c0 with
                completedLeads := ((getCampaignLeads
                  ((jsSliceTo (getCampaignLeadsByStatus sys.store cid .pending)
                      ((campaign.settings.maxConcurrentCalls : Int) -
                        (getActiveCampaignCalls sys.store cid).length)).foldl
                    (fun s l => processLead s campaign l campaign.settings now place)
                    sys).store cid).filter (fun l =>
                      decide (l.status = .contacted ∨ l.status = .failed))).length
                successfulCalls := ((getCampaignLeads
                  ((jsSliceTo (getCampaignLeadsByStatus sys.store cid .pending)
                      ((campaign.settings.maxConcurrentCalls : Int) -
                        (getActiveCampaignCalls sys.store cid).length)).foldl
                    (fun s l => processLead s campaign l campaign.settings now place)
                    sys).store cid).filter (fun l =>
                      decide (l.status = .contacted))).length }
              else c0)
            (fun c0 => by by_cases hcc : c0.id = cid <;> simp [hcc])
            rfl rfl (fun l2 h2 => ⟨l2, h2, rfl⟩) rfl (fun r hrr => Or.inl hrr) hmid
      · have hw' : isWithinWorkingHours loc campaign.settings.workingHours = false := by
          simpa using hw
        rw [tick_out_of_hours sys cid now loc place campaign hc hw']
        exact h
    · rw [tick_not_running sys cid now loc place hr]
      exact h

theorem inv_step (sys : Sys) (e : Event) (h : Inv sys) : Inv (step sys e) := by
  cases e with
  | create d now => exact inv_createCampaign sys d now h
  | start cid now => exact inv_startCampaign sys cid now h
  | pause cid => exact inv_pauseCampaign sys cid h
  | tick cid now loc place => exact inv_tick sys cid now loc place h
  | webhook callId status data => exact inv_webhook sys callId status data h
  | endCall callId now => exact inv_endCall sys callId now h

theorem reachable_inv {sys : Sys} (h : Reachable sys) : Inv sys := by
  induction h with
  | init => exact inv_init
  | step e hs ih => exact inv_step _ e ih

/-- C5: in every reachable state, processing any webhook event for any call —
in particular for the call of a lead already in a terminal status — is a
no-op on the store: `voipOrchestrator.makeCall` nests the lead reference
under `metadata.settings`, while `handleCallWebhook` reads the top-level
`metadata.leadId`, which no call row the engine creates ever carries, so the
reconciler never resolves a lead and leaves every lead and call unchanged. -/
theorem c5_webhook_noop (s : Sys) (h : Reachable s) (callId : Nat)
    (status : String) (data : WebhookData) :
    handleCallWebhook s.store callId status data = s.store := by
  have hinv := reachable_inv h
  cases hc : getCall s.store callId with
  | none => exact handleCallWebhook_unknown s.store callId status data hc
  | some call =>
    exact handleCallWebhook_noLead s.store callId status data call hc
      (hinv.callsNoLead call (List.mem_of_find?_eq_some hc))

/-- Witness for C5 at the reachable state `c5w`, whose lead 0 is terminally
failed and whose call 0 exists: a completed webhook for that call changes
nothing. -/
theorem c5_webhook_noop_witness :
    (getLead c5w.store 0).map (fun l => l.status) = some LeadStatus.failed ∧
    handleCallWebhook c5w.store 0 "completed" dataC = c5w.store :=
  ⟨by decide,
   c5_webhook_noop c5w
     (Reachable.step (.tick 0 3000 locMon placeAll)
       (Reachable.step (.endCall 0 2000)
         (Reachable.step (.tick 0 1000 locMon placeAll)
           (Reachable.step (.create dC5 0) Reachable.init)))) 0 "completed" dataC⟩

/-- C1: in every reachable system state, the active call count of each
campaign the store resolves never exceeds its `settings.maxConcurrentCalls`;
and any tick observing an active call count at (hence, by the bound, exactly
at) the cap invokes the adapter zero times and creates no call row. -/
theorem c1_concurrency_bound (s : Sys) (h : Reachable s) :
    (∀ cid c, getCampaign s.store cid = some c →
      activeCallCount s.store cid ≤ c.settings.maxConcurrentCalls) ∧
    (∀ cid c now loc place, getCampaign s.store cid = some c →
      c.settings.maxConcurrentCalls ≤ activeCallCount s.store cid →
      (tick s cid now loc place).dialLog = s.dialLog ∧
      (tick s cid now loc place).store.calls = s.store.calls) := by
  have hinv := reachable_inv h
  refine ⟨hinv.bound, ?_⟩
  intro cid c now loc place hc hge
  by_cases hr : cid ∈ s.engine.running
  · by_cases hw : isWithinWorkingHours loc c.settings.workingHours = true
    · have heqc : activeCallCount s.store cid = c.settings.maxConcurrentCalls :=
        le_antisymm (hinv.bound cid c hc) hge
      have heqc2 : (getActiveCampaignCalls s.store cid).length =
          c.settings.maxConcurrentCalls := heqc
      have h1 : (!decide (cid ∈ s.engine.running)) = false := by simp [hr]
      have h2 : (!isWithinWorkingHours loc c.settings.workingHours) = false := by
        simp [hw]
      have hslots : ((c.settings.maxConcurrentCalls : Int) -
          ((getActiveCampaignCalls s.store cid).length : Int)) = 0 := by
        have hcast : ((getActiveCampaignCalls s.store cid).length : Int) =
            (c.settings.maxConcurrentCalls : Int) := by
          exact_mod_cast heqc2
        rw [hcast, sub_self]
      simp only [tick, hc, h1, h2, Bool.false_eq_true, if_false, hslots, jsSliceTo_zero,
        List.foldl_nil]
      split
      · exact ⟨completeCampaign_dialLog _ _ _, completeCampaign_calls _ _ _⟩
      · exact ⟨rfl, rfl⟩
    · rw [tick_out_of_hours s cid now loc place c hc (by simpa using hw)]
      exact ⟨rfl, rfl⟩
  · rw [tick_not_running s cid now loc place hr]
    exact ⟨rfl, rfl⟩

/-- Witness for C1 at the concrete reachable state `sys1`. -/
theorem c1_concurrency_bound_witness :
    (∀ cid c, getCampaign sys1.store cid = some c →
      activeCallCount sys1.store cid ≤ c.settings.maxConcurrentCalls) ∧
    (∀ cid c now loc place, getCampaign sys1.store cid = some c →
      c.settings.maxConcurrentCalls ≤ activeCallCount sys1.store cid →
      (tick sys1 cid now loc place).dialLog = sys1.dialLog ∧
      (tick sys1 cid now loc place).store.calls = sys1.store.calls) :=
  c1_concurrency_bound sys1 (Reachable.step (.create (d3 1) 0) Reachable.init)

/-- C10 amended: from any reachable state, creating a campaign with an empty
leads list and no `scheduledAt` starts it immediately (stored status
running), and the first tick that falls inside the configured working-hours
window transitions it directly to completed without invoking the adapter,
because the every-lead-terminal completion condition holds vacuously with
zero leads; a tick outside the window would leave it running. -/
theorem c10_empty_campaign_completes (s : Sys) (h : Reachable s) (d : CreateData)
    (now now2 : Int) (loc : LocalTime) (place : Nat → Option String)
    (hleads : d.leads = []) (hsched : d.scheduledAt = none)
    (hwh : isWithinWorkingHours loc d.settings.workingHours = true) :
    (getCampaign (createCampaign s d now).store s.store.nextCampaignId).map
        (fun c => c.status) = some .running ∧
    (getCampaign (tick (createCampaign s d now) s.store.nextCampaignId
        now2 loc place).store s.store.nextCampaignId).map
        (fun c => c.status) = some .completed ∧
    (tick (createCampaign s d now) s.store.nextCampaignId now2 loc place).dialLog =
      s.dialLog ∧
    (createCampaign s d now).dialLog = s.dialLog := by
  have hinv := reachable_inv h
  have hrun0 : s.store.nextCampaignId ∉ s.engine.running := fun hmem =>
    absurd (hinv.runIds s.store.nextCampaignId hmem) (lt_irrefl _)
  have hrunF : decide (s.store.nextCampaignId ∈ s.engine.running) = false :=
    decide_eq_false hrun0
  have hfind0 : s.store.campaigns.find?
      (fun c0 => decide (c0.id = s.store.nextCampaignId)) = none := by
    rw [List.find?_eq_none]
    intro c0 hc0
    simp only [decide_eq_true_eq]
    exact Nat.ne_of_lt (hinv.campIds c0 hc0)
  have hget1 : getCampaign (storeCreateCampaign s.store d).1 s.store.nextCampaignId =
      some (newCampaignRec s.store d) := by
    show List.find? _ (s.store.campaigns ++ [newCampaignRec s.store d]) = _
    rw [find?_append_cases, hfind0]
    simp [List.find?, newCampaignRec]
  have hstart : startCampaign { s with store := (storeCreateCampaign s.store d).1 }
      s.store.nextCampaignId now =
      Except.ok { s with
        store := logActivity (updateCampaign (storeCreateCampaign s.store d).1
          s.store.nextCampaignId (fun c0 =>
            { c0 with status := .running, startedAt := some now }))
          ("campaign_started:" ++ (newCampaignRec s.store d).name)
        engine := { running := s.engine.running ++ [s.store.nextCampaignId] } } := by
    simp only [startCampaign, hrunF, Bool.false_eq_true, if_false, hget1]
    have hst : ((decide ((newCampaignRec s.store d).status ≠ CampaignStatus.draft)) &&
        (decide ((newCampaignRec s.store d).status ≠ CampaignStatus.scheduled))) = false := by
      simp [newCampaignRec]
    rw [hst]
    simp
  have hcreate : createCampaign s d now = { s with
      store := logActivity (updateCampaign (storeCreateCampaign s.store d).1
        s.store.nextCampaignId (fun c0 =>
          { c0 with status := .running, startedAt := some now }))
        ("campaign_started:" ++ (newCampaignRec s.store d).name)
      engine := { running := s.engine.running ++ [s.store.nextCampaignId] } } := by
    simp only [createCampaign, hleads, hsched, List.foldl_nil]
    have hid2 : (storeCreateCampaign s.store d).2.id = s.store.nextCampaignId := rfl
    rw [if_pos trivial, hid2, hstart]
  have hget2 : getCampaign (createCampaign s d now).store s.store.nextCampaignId =
      some { newCampaignRec s.store d with status := .running, startedAt := some now } := by
    rw [hcreate]
    show getCampaign (updateCampaign (storeCreateCampaign s.store d).1
      s.store.nextCampaignId _) s.store.nextCampaignId = _
    rw [getCampaign_updateCampaign (storeCreateCampaign s.store d).1
      s.store.nextCampaignId
      (fun c0 => { c0 with status := .running, startedAt := some now })
      (fun c0 => rfl) s.store.nextCampaignId, hget1]
    simp [newCampaignRec]
  have hpend : getCampaignLeadsByStatus (createCampaign s d now).store
      s.store.nextCampaignId .pending = [] := by
    rw [hcreate]
    show List.filter _ s.store.leads = []
    rw [List.filter_eq_nil_iff]
    intro l hl hp
    rw [decide_eq_true_eq] at hp
    exact absurd (hinv.leadCamps l hl) (by rw [hp.1]; exact lt_irrefl _)
  have hall : getCampaignLeads (createCampaign s d now).store
      s.store.nextCampaignId = [] := by
    rw [hcreate]
    show List.filter _ s.store.leads = []
    rw [List.filter_eq_nil_iff]
    intro l hl hp
    rw [decide_eq_true_eq] at hp
    exact absurd (hinv.leadCamps l hl) (by rw [hp]; exact lt_irrefl _)
  have hrun1 : (!decide (s.store.nextCampaignId ∈
      (createCampaign s d now).engine.running)) = false := by
    rw [hcreate]
    simp
  have hwh1 : (!isWithinWorkingHours loc ({ newCampaignRec s.store d with
      status := CampaignStatus.running,
      startedAt := some now } : CampaignRec).settings.workingHours) = false := by
    show (!isWithinWorkingHours loc d.settings.workingHours) = false
    rw [hwh]
    rfl
  have htick : tick (createCampaign s d now) s.store.nextCampaignId now2 loc place =
      completeCampaign (createCampaign s d now) s.store.nextCampaignId now2 := by
    simp only [tick, hget2, hrun1, hwh1, Bool.false_eq_true, if_false, hpend,
      jsSliceTo_nil, List.foldl_nil, hall, List.filter_nil, List.length_nil, if_true]
  have hcomp : completeCampaign (createCampaign s d now) s.store.nextCampaignId now2 =
      { createCampaign s d now with
        store := logActivity (updateCampaign (createCampaign s d now).store
          s.store.nextCampaignId (fun c0 =>
            { c0 with status := .completed, completedAt := some now2 }))
          ("campaign_completed:" ++ ({ newCampaignRec s.store d with
            status := CampaignStatus.running,
            startedAt := some now } : CampaignRec).name)
        engine := { running := ((createCampaign s d now).engine.running.filter
          (fun r => decide (r ≠ s.store.nextCampaignId))) } } := by
    simp only [completeCampaign, hget2]
  refine ⟨?_, ?_, ?_, ?_⟩
  · rw [hget2]
    rfl
  · rw [htick, hcomp]
    show (getCampaign (updateCampaign (createCampaign s d now).store
      s.store.nextCampaignId _) s.store.nextCampaignId).map _ = _
    rw [getCampaign_updateCampaign (createCampaign s d now).store
      s.store.nextCampaignId
      (fun c0 => { c0 with status := .completed, completedAt := some now2 })
      (fun c0 => rfl) s.store.nextCampaignId, hget2]
    simp [newCampaignRec]
  · rw [htick, completeCampaign_dialLog, hcreate]
  · rw [hcreate]

/-- Witness for the C10 amended theorem: the empty-lead always-open-window
campaign created from the initial state. -/
theorem c10_empty_campaign_completes_witness :
    (getCampaign (createCampaign init dEmptyAll 0).store init.store.nextCampaignId).map
        (fun c => c.status) = some .running ∧
    (getCampaign (tick (createCampaign init dEmptyAll 0) init.store.nextCampaignId
        1000 locMon placeAll).store init.store.nextCampaignId).map
        (fun c => c.status) = some .completed ∧
    (tick (createCampaign init dEmptyAll 0) init.store.nextCampaignId
        1000 locMon placeAll).dialLog = init.dialLog ∧
    (createCampaign init dEmptyAll 0).dialLog = init.dialLog :=
  c10_empty_campaign_completes init Reachable.init dEmptyAll 0 1000 locMon placeAll
    rfl rfl (by decide)

end CampaignEngine
